import Mathlib

/-!
Verification development for the seer repository (multi-chain blockchain
indexer). The Go sources `indexer/db.go` and `evm/generators.go` are embedded
shallowly: pure helper functions become Lean functions, the database layer is
modelled by explicit state passing (a list of executed bulk-insert statements),
external collaborators (JSON-RPC provider, ABI parser/decoder, JSON marshaller)
become oracle parameters, and the concurrent regions are modelled by the
deterministic per-task effects they produce (ordering across tasks is not
guaranteed by the code and is fixed to task-spawn order here).

Go strings in this code path are hex/ASCII strings, so Go's byte-indexed
slicing (`s[2:]`, `s[:10]`, `len(s)`) is rendered with `List Char` operations
on `String.data`.
-/

deriving instance DecidableEq for Except

namespace Seer

/-! ### Hex primitives (Go `encoding/hex`, `math/big`) -/

/-- Value of one hex digit, `none` for a non-hex character. -/
def hexDigitVal (c : Char) : Option Nat :=
  if '0' ≤ c ∧ c ≤ '9' then some (c.toNat - '0'.toNat)
  else if 'a' ≤ c ∧ c ≤ 'f' then some (c.toNat - 'a'.toNat + 10)
  else if 'A' ≤ c ∧ c ≤ 'F' then some (c.toNat - 'A'.toNat + 10)
  else none

/-- Go `hex.DecodeString` on a character list: decodes pairs of hex digits to
bytes; odd length or an invalid character is an error. -/
def hexDecodeList : List Char → Except String (List Nat)
  | [] => .ok []
  | [_] => .error "encoding/hex: odd length hex string"
  | c1 :: c2 :: rest =>
    match hexDigitVal c1, hexDigitVal c2 with
    | some hi, some lo =>
      match hexDecodeList rest with
      | .ok bs => .ok ((16 * hi + lo) :: bs)
      | .error e => .error e
    | _, _ => .error "encoding/hex: invalid byte"

/-- Accumulate the numeric value of a hex-digit list, `none` on any non-hex
character. -/
def hexDigitsVal (cs : List Char) : Option Nat :=
  cs.foldlM (fun acc c => (hexDigitVal c).map (fun d => 16 * acc + d)) 0

/-- Go `big.Int.SetString(s, 16)`: an optional sign followed by a non-empty
run of hex digits; anything else fails (`none`). -/
def setStringHex (s : String) : Option Int :=
  match s.data with
  | [] => none
  | '+' :: rest =>
    if rest.isEmpty then none else (hexDigitsVal rest).map (fun n => (n : Int))
  | '-' :: rest =>
    if rest.isEmpty then none else (hexDigitsVal rest).map (fun n => -(n : Int))
  | cs => (hexDigitsVal cs).map (fun n => (n : Int))

/-- Go `strings.TrimPrefix(s, "0x")`. -/
def trimPrefix0x (s : String) : String :=
  if s.data.take 2 = ['0', 'x'] then String.mk (s.data.drop 2) else s

/-- `indexer/db.go:121` `hexStringToBigInt`: `""` becomes a nil `*big.Int`
(`none`) with no error; otherwise the `0x` prefix is stripped and the rest is
parsed in base 16, failure being returned as an error. -/
def hexStringToBigInt (hexString : String) : Except String (Option Int) :=
  if hexString = "" then .ok none
  else
    let trimmed := trimPrefix0x hexString
    match setStringHex trimmed with
    | some value => .ok (some value)
    | none => .error ("failed to parse hex string: " ++ trimmed)

/-- `indexer/db.go:346` `decodeAddress`: strings shorter than two characters
decode to the single byte `0x00`; otherwise the first two characters are
dropped unconditionally and the remainder is hex-decoded. -/
def decodeAddress (address : String) : Except String (List Nat) :=
  if address.length < 2 then .ok [0x00]
  else hexDecodeList (address.data.drop 2)

/-! ### Go `fmt.Sprintf` with no operands (`fmt/print.go`, `doPrintf`)

`LabelsTableName` and `CustomerDBTransactionsTableName` pass the chain string
into `fmt.Sprintf` as the FORMAT string with no operands, so `%` directives in
the chain are expanded: literal text is copied; each `%` directive consumes
flags, an optional bracketed argument index, width and precision, and then —
there being no operands — `%%` emits `%`, a directive whose argument index is
present emits `%!v(BADINDEX)` for its verb `v`, any other verb emits
`%!v(MISSING)`, a `*` width or precision emits `%!(BADWIDTH)` / `%!(BADPREC)`
in passing, and a `%` with no verb left emits `%!(NOVERB)`. Format strings
are treated at character level (the code's chain names are ASCII). -/

/-- Go fmt `parsenum`: consume leading decimal digits, accumulating the
value; a value above the `tooLarge` cutoff (10^6) aborts the scan, consuming
the remainder with no number. Returns (value, sawNumber, rest). -/
def goParsenum : List Char → Nat → Bool → Nat × Bool × List Char
  | [], num, isnum => (num, isnum, [])
  | c :: cs, num, isnum =>
    if '0' ≤ c ∧ c ≤ '9' then
      if 1000000 < num then (0, false, [])
      else goParsenum cs (num * 10 + (c.toNat - '0'.toNat)) true
    else (num, isnum, c :: cs)

/-- The flag scan of `doPrintf` (`#`, `0`, `+`, `-`, space); with no operands
the recorded flags never influence the output, so only the consumption
matters. -/
def goFlags : List Char → List Char
  | [] => []
  | c :: cs =>
    if c = '#' ∨ c = '0' ∨ c = '+' ∨ c = '-' ∨ c = ' ' then goFlags cs
    else c :: cs

/-- Go fmt `parseArgNumber`, given the characters after the `[`: fewer than
two remaining characters or no closing `]` consume just the `[`; otherwise
everything through the `]` is consumed and the index is well formed iff the
bracket content is exactly a (not too large) run of digits. Returns
(wellFormed, rest). -/
def goParseArgNumber (cs : List Char) : Bool × List Char :=
  if cs.length < 2 then (false, cs)
  else
    match cs.findIdx? (fun c => c = ']') with
    | none => (false, cs)
    | some j =>
      let pr := goParsenum (cs.take j) 0 false
      (pr.2.1 && pr.2.2.isEmpty, cs.drop (j + 1))

/-- Go fmt `argNumber` with no operands: a `[` always spoils `goodArgNum`
(no index can be in range of an empty operand list); `found` records whether
the bracketed index was well formed. Returns (sawBracket, found, rest). -/
def goArgNumber : List Char → Bool × Bool × List Char
  | [] => (false, false, [])
  | c :: cs =>
    if c = '[' then
      let pr := goParseArgNumber cs
      (true, pr.1, pr.2)
    else (false, false, c :: cs)

/-- The running state of one `%` directive of `doPrintf`: error text emitted
so far, the `goodArgNum` and `afterIndex` flags, and the unconsumed format. -/
structure VerbState where
  emitted : List Char
  goodArgNum : Bool
  afterIndex : Bool
  rest : List Char

/-- One `argNumber` call applied to the directive state. -/
def goStageArgNum (st : VerbState) : VerbState :=
  let a := goArgNumber st.rest
  { st with
    goodArgNum := st.goodArgNum && !a.1
    afterIndex := a.2.1
    rest := a.2.2 }

/-- The width stage of `doPrintf`: a `*` width has no operand to consume, so
`%!(BADWIDTH)` is emitted and `afterIndex` cleared; otherwise digits are
consumed and an explicit width right after an argument index spoils
`goodArgNum`. -/
def goStageWidth (st : VerbState) : VerbState :=
  if st.rest.head? = some '*' then
    { st with
      emitted := st.emitted ++ "%!(BADWIDTH)".data
      afterIndex := false
      rest := st.rest.tail }
  else
    let pr := goParsenum st.rest 0 false
    { st with
      goodArgNum := st.goodArgNum && !(st.afterIndex && pr.2.1)
      rest := pr.2.2 }

/-- The precision stage of `doPrintf` (entered only when a `.` is followed by
at least one character): a precision after an argument index spoils
`goodArgNum`; another `argNumber` call follows; a `*` precision emits
`%!(BADPREC)`; otherwise digits are consumed. -/
def goStagePrec (st : VerbState) : VerbState :=
  if st.rest.head? = some '.' ∧ st.rest.tail ≠ [] then
    let st1 := { st with
      goodArgNum := st.goodArgNum && !st.afterIndex
      rest := st.rest.tail }
    let st2 := goStageArgNum st1
    if st2.rest.head? = some '*' then
      { st2 with
        emitted := st2.emitted ++ "%!(BADPREC)".data
        afterIndex := false
        rest := st2.rest.tail }
    else
      let pr := goParsenum st2.rest 0 false
      { st2 with rest := pr.2.2 }
  else st

/-- The final `argNumber` call of `doPrintf`, skipped after an index. -/
def goStageArgNumC (st : VerbState) : VerbState :=
  if st.afterIndex then st else goStageArgNum st

/-- The verb dispatch of `doPrintf` with no operands: nothing left emits
`%!(NOVERB)`; `%` emits a literal `%`; a spoiled argument number emits
`%!v(BADINDEX)`; otherwise the argument is missing: `%!v(MISSING)`. -/
def goStageVerb (st : VerbState) : List Char × List Char :=
  match st.rest with
  | [] => (st.emitted ++ "%!(NOVERB)".data, [])
  | v :: cs =>
    if v = '%' then (st.emitted ++ ['%'], cs)
    else if st.goodArgNum = false then
      (st.emitted ++ '%' :: '!' :: v :: "(BADINDEX)".data, cs)
    else (st.emitted ++ '%' :: '!' :: v :: "(MISSING)".data, cs)

/-- Processing of one `%` directive, starting just after the `%`: flags,
argument index, width, precision, final argument index, verb. Returns the
emitted text and the remaining format. -/
def goVerb (s : List Char) : List Char × List Char :=
  goStageVerb (goStageArgNumC (goStagePrec (goStageWidth (goStageArgNum
    { emitted := [], goodArgNum := true, afterIndex := false,
      rest := goFlags s }))))

/-- The `formatLoop` of `doPrintf` with no operands: literal characters are
copied and each `%` hands over to `goVerb`. The first argument is an
iteration budget; the initial budget `s.length` never runs out because every
iteration consumes at least one character (`goVerb` never lengthens the
format — see `doPrintf_budget`), so the `0` case below is unreachable from
`Sprintf`. -/
def doPrintf : Nat → List Char → List Char
  | _, [] => []
  | 0, _ :: _ => []
  | fuel + 1, c :: rest =>
    if c = '%' then
      let pr := goVerb rest
      pr.1 ++ doPrintf fuel pr.2
    else c :: doPrintf fuel rest

/-- Go `fmt.Sprintf` applied to a format string with no operands. -/
def Sprintf (format : String) : String :=
  String.mk (doPrintf format.data.length format.data)

/-! ### Per-chain table names (`indexer/db.go:26-118`) -/

/-- `indexer/db.go:26` `LabelsTableName`:
`fmt.Sprintf(blockchain + "_labels")` — the chain string is part of the
FORMAT string and there is no whitelist. -/
def LabelsTableName (blockchain : String) : String :=
  Sprintf (blockchain ++ "_labels")

/-- `indexer/db.go:116` `CustomerDBTransactionsTableName`:
`fmt.Sprintf(blockchain + "_transactions")` — the chain string is part of the
FORMAT string and there is no whitelist. -/
def CustomerDBTransactionsTableName (blockchain : String) : String :=
  Sprintf (blockchain ++ "_transactions")

/-- `indexer/db.go:30` `BlocksTableName`: a fixed switch over the known
chains; anything else is an error. -/
def BlocksTableName (blockchain : String) : Except String String :=
  if blockchain = "arbitrum_one" then .ok "arbitrum_one_blocks"
  else if blockchain = "arbitrum_sepolia" then .ok "arbitrum_sepolia_blocks"
  else if blockchain = "b3" then .ok "b3_blocks"
  else if blockchain = "b3_sepolia" then .ok "b3_sepolia_blocks"
  else if blockchain = "ethereum" then .ok "ethereum_blocks"
  else if blockchain = "game7" then .ok "game7_blocks"
  else if blockchain = "game7_orbit_arbitrum_sepolia" then .ok "game7_orbit_arbitrum_sepolia_blocks"
  else if blockchain = "game7_testnet" then .ok "game7_testnet_blocks"
  else if blockchain = "imx_zkevm" then .ok "imx_zkevm_blocks"
  else if blockchain = "imx_zkevm_sepolia" then .ok "imx_zkevm_sepolia_blocks"
  else if blockchain = "mantle" then .ok "mantle_blocks"
  else if blockchain = "mantle_sepolia" then .ok "mantle_sepolia_blocks"
  else if blockchain = "polygon" then .ok "polygon_blocks"
  else if blockchain = "ronin" then .ok "ronin_blocks"
  else if blockchain = "ronin_saigon" then .ok "ronin_saigon_blocks"
  else if blockchain = "sepolia" then .ok "sepolia_blocks"
  else if blockchain = "xai" then .ok "xai_blocks"
  else if blockchain = "xai_sepolia" then .ok "xai_sepolia_blocks"
  else .error "Unsupported blockchain"

/-- `indexer/db.go:73` `TransactionsTableName`: a fixed switch over the known
chains; anything else is an error. -/
def TransactionsTableName (blockchain : String) : Except String String :=
  if blockchain = "arbitrum_one" then .ok "arbitrum_one_transactions"
  else if blockchain = "arbitrum_sepolia" then .ok "arbitrum_sepolia_transactions"
  else if blockchain = "b3" then .ok "b3_transactions"
  else if blockchain = "b3_sepolia" then .ok "b3_sepolia_transactions"
  else if blockchain = "ethereum" then .ok "ethereum_transactions"
  else if blockchain = "game7" then .ok "game7_transactions"
  else if blockchain = "game7_orbit_arbitrum_sepolia" then .ok "game7_orbit_arbitrum_sepolia_transactions"
  else if blockchain = "game7_testnet" then .ok "game7_testnet_transactions"
  else if blockchain = "imx_zkevm" then .ok "imx_zkevm_transactions"
  else if blockchain = "imx_zkevm_sepolia" then .ok "imx_zkevm_sepolia_transactions"
  else if blockchain = "mantle" then .ok "mantle_transactions"
  else if blockchain = "mantle_sepolia" then .ok "mantle_sepolia_transactions"
  else if blockchain = "polygon" then .ok "polygon_transactions"
  else if blockchain = "ronin" then .ok "ronin_transactions"
  else if blockchain = "ronin_saigon" then .ok "ronin_saigon_transactions"
  else if blockchain = "sepolia" then .ok "sepolia_transactions"
  else if blockchain = "xai" then .ok "xai_transactions"
  else if blockchain = "xai_sepolia" then .ok "xai_sepolia_transactions"
  else .error "Unsupported blockchain"

/-- The chain whitelist of `BlocksTableName` / `TransactionsTableName`
(spec §6 "Known chain whitelist"). -/
def knownChains : List String :=
  ["arbitrum_one", "arbitrum_sepolia", "b3", "b3_sepolia", "ethereum",
   "game7", "game7_orbit_arbitrum_sepolia", "game7_testnet", "imx_zkevm",
   "imx_zkevm_sepolia", "mantle", "mantle_sepolia", "polygon", "ronin",
   "ronin_saigon", "sepolia", "xai", "xai_sepolia"]

/-- `indexer/db.go:145` `IsBlockchainWithL1Chain`. -/
def IsBlockchainWithL1Chain (blockchain : String) : Bool :=
  if blockchain = "ethereum" then false
  else if blockchain = "polygon" then false
  else if blockchain = "arbitrum_one" then true
  else if blockchain = "arbitrum_sepolia" then true
  else if blockchain = "game7_orbit_arbitrum_sepolia" then true
  else if blockchain = "game7_testnet" then true
  else if blockchain = "game7" then true
  else if blockchain = "xai" then true
  else if blockchain = "xai_sepolia" then true
  else if blockchain = "mantle" then false
  else if blockchain = "mantle_sepolia" then false
  else if blockchain = "b3" then false
  else if blockchain = "b3_sepolia" then false
  else if blockchain = "ronin" then false
  else if blockchain = "ronin_saigon" then false
  else false

/-- The chains for which `IsBlockchainWithL1Chain` answers `true`. -/
def l1AnchoredChains : List String :=
  ["arbitrum_one", "arbitrum_sepolia", "game7_orbit_arbitrum_sepolia",
   "game7_testnet", "game7", "xai", "xai_sepolia"]

/-! ### Go interface values and the bulk-insert value builder
(`indexer/db.go:140-143, 354-380, 420-447`) -/

/-- A Go `interface{}` value as it reaches `determineValue`. `goNil` is the
untyped nil interface; `goNilPtr ty` is a typed nil pointer `(*ty)(nil)`;
`goPtrBigInt` is a non-nil `*big.Int`. -/
inductive GoVal where
  | goNil
  | goNilPtr (ty : String)
  | goPtrBigInt (n : Int)
  | goUInt (n : Nat)
  | goInt (n : Int)
  | goStr (s : String)
  | goBytes (bs : List Nat)
  | goUUID
  deriving DecidableEq, Repr

/-- A value as stored in a bulk-insert column array; `none` is SQL NULL. -/
abbrev SqlVal := Option GoVal

/-- `indexer/db.go:366` `determineValue`: a nil interface and a typed nil
pointer both become SQL NULL; everything else passes through unchanged. -/
def determineValue : GoVal → SqlVal
  | .goNil => none
  | .goNilPtr _ => none
  | v => some v

/-- `indexer/db.go:140` `UnnestInsertValueStruct`. -/
structure UnnestInsertValueStruct where
  type : String
  values : List SqlVal
  deriving DecidableEq, Repr

/-- The `map[string]UnnestInsertValueStruct` of the writers, as an
association list (iteration order is never used by the code). -/
abbrev ValuesMap := List (String × UnnestInsertValueStruct)

def lookupVM (m : ValuesMap) (key : String) : Option UnnestInsertValueStruct :=
  match m.find? (fun kv => kv.1 = key) with
  | some kv => some kv.2
  | none => none

def setVM (m : ValuesMap) (key : String) (v : UnnestInsertValueStruct) : ValuesMap :=
  m.map (fun kv => if kv.1 = key then (key, v) else kv)

/-- `indexer/db.go:354` `updateValues`: a missing key is a no-op; otherwise
`determineValue val` is appended to the column's array. -/
def updateValues (valuesMap : ValuesMap) (key : String) (val : GoVal) : ValuesMap :=
  match lookupVM valuesMap key with
  | none => valuesMap
  | some entry =>
    setVM valuesMap key { entry with values := entry.values ++ [determineValue val] }

/-- One executed bulk insert, as produced by
`indexer/db.go:420` `executeBatchInsert`: the table, the column list in
insert order, and per column its declared array type and value array. -/
structure InsertStmt where
  table : String
  columns : List String
  colTypes : List String
  colValues : List (List SqlVal)
  conflictClause : String
  deriving DecidableEq, Repr

/-- The statement `executeBatchInsert` executes: for each listed column the
declared type (`$i::T[]`) and the accumulated value array (a column missing
from the map yields Go's zero struct, i.e. an empty array). -/
def executeBatchInsertStmt (tableName : String) (columns : List String)
    (values : ValuesMap) (conflictClause : String) : InsertStmt :=
  { table := tableName
    columns := columns
    colTypes := columns.map (fun c => ((lookupVM values c).getD ⟨"", []⟩).type)
    colValues := columns.map (fun c => ((lookupVM values c).getD ⟨"", []⟩).values)
    conflictClause := conflictClause }

/-! ### Label and transaction records

The `indexer` package's struct declarations (`TransactionLabel`, `EventLabel`,
`RawTransaction`, `BlockIndex`) are not under `src/`; their fields are
reconstructed from their uses in `indexer/db.go` / `evm/generators.go` and
from spec §3. -/

/-- Modelled from the spec: `indexer.TransactionLabel` (spec §3 "Label"),
fields as used by `WriteTransactions` and the decoder. -/
structure TransactionLabel where
  address : String
  blockNumber : Nat
  blockHash : String
  callerAddress : String
  labelName : String
  labelType : String
  originAddress : String
  label : String
  transactionHash : String
  labelData : String
  blockTimestamp : Nat
  deriving DecidableEq, Repr

/-- Modelled from the spec: `indexer.EventLabel` (spec §3 "Label"), fields as
used by `WriteEvents` and the decoder. -/
structure EventLabel where
  label : String
  labelName : String
  labelType : String
  blockNumber : Nat
  blockHash : String
  address : String
  callerAddress : String
  originAddress : String
  transactionHash : String
  labelData : String
  blockTimestamp : Nat
  logIndex : Nat
  deriving DecidableEq, Repr

/-- Modelled from the spec: `indexer.RawTransaction` (spec §3 "Transaction"),
fields as used by `WriteRawTransactions` and the decoder; the hex numeric
fields are strings, `l1BlockNumber` is a nullable pointer. -/
structure RawTransaction where
  hash : String
  blockHash : String
  fromAddress : String
  toAddress : String
  input : String
  gas : String
  gasPrice : String
  nonce : String
  value : String
  maxFeePerGas : String
  maxPriorityFeePerGas : String
  blockTimestamp : Nat
  blockNumber : Nat
  transactionIndex : Nat
  transactionType : Nat
  l1BlockNumber : Option Nat
  deriving DecidableEq, Repr

/-- Modelled from the spec: `indexer.BlockIndex` (spec §3 "Block Index Row"),
fields as used by `writeBlockIndexToDB`. -/
structure BlockIndex where
  blockNumber : Nat
  blockHash : String
  blockTimestamp : Nat
  parentHash : String
  rowID : Nat
  path : String
  l1BlockNumber : Nat
  deriving DecidableEq, Repr

/-- Modelled from the spec: `indexer.SeerCrawlerLabel` — the ordinary label
value, spec §3 `label ∈ {seer, seer-raw}`. -/
def SeerCrawlerLabel : String := "seer"

/-- Modelled from the spec: `indexer.SeerCrawlerRawLabel` — the fallback
label for undecodable records (spec glossary "seer-raw label"). -/
def SeerCrawlerRawLabel : String := "seer-raw"

/-! ### The label writers (`indexer/db.go:986-1106, 1446-1741`) -/

/-- The `valuesMap` initialisation of `WriteTransactions`
(`indexer/db.go:1450-1510`). -/
def txCallsInitialMap : ValuesMap :=
  [("id", ⟨"UUID", []⟩), ("address", ⟨"BYTEA", []⟩),
   ("block_number", ⟨"BIGINT", []⟩), ("block_hash", ⟨"TEXT", []⟩),
   ("caller_address", ⟨"BYTEA", []⟩), ("label_name", ⟨"TEXT", []⟩),
   ("label_type", ⟨"TEXT", []⟩), ("origin_address", ⟨"BYTEA", []⟩),
   ("label", ⟨"TEXT", []⟩), ("transaction_hash", ⟨"TEXT", []⟩),
   ("label_data", ⟨"jsonb", []⟩), ("block_timestamp", ⟨"BIGINT", []⟩)]

/-- The loop body of `WriteTransactions` (`indexer/db.go:1512-1547`): a row
whose address, caller address or origin address fails to decode is skipped
(`continue`); otherwise each column array receives one value. -/
def writeTransactionsRow (m : ValuesMap) (transaction : TransactionLabel) : ValuesMap :=
  match decodeAddress transaction.address with
  | .error _ => m
  | .ok addressBytes =>
    match decodeAddress transaction.callerAddress with
    | .error _ => m
    | .ok callerAddressBytes =>
      match decodeAddress transaction.originAddress with
      | .error _ => m
      | .ok originAddressBytes =>
        let m := updateValues m "id" .goUUID
        let m := updateValues m "address" (.goBytes addressBytes)
        let m := updateValues m "block_number" (.goUInt transaction.blockNumber)
        let m := updateValues m "block_hash" (.goStr transaction.blockHash)
        let m := updateValues m "caller_address" (.goBytes callerAddressBytes)
        let m := updateValues m "label_name" (.goStr transaction.labelName)
        let m := updateValues m "label_type" (.goStr transaction.labelType)
        let m := updateValues m "origin_address" (.goBytes originAddressBytes)
        let m := updateValues m "label" (.goStr transaction.label)
        let m := updateValues m "transaction_hash" (.goStr transaction.transactionHash)
        let m := updateValues m "label_data" (.goStr transaction.labelData)
        updateValues m "block_timestamp" (.goUInt transaction.blockTimestamp)

/-- `indexer/db.go:1446` `WriteTransactions`, returning the bulk insert it
executes. The only failure path in the source is the `tx.Exec` call, which is
not modelled (the database always accepts a statement here), so the result is
always `.ok`. -/
def WriteTransactions (blockchain : String) (transactions : List TransactionLabel) :
    Except String InsertStmt :=
  let tableName := LabelsTableName blockchain
  let columns := ["id", "address", "block_number", "block_hash", "caller_address",
    "label_name", "label_type", "origin_address", "label", "transaction_hash",
    "label_data", "block_timestamp"]
  let finalMap := transactions.foldl writeTransactionsRow txCallsInitialMap
  .ok (executeBatchInsertStmt tableName columns finalMap "ON CONFLICT DO NOTHING")

/-- The `valuesMap` initialisation of `WriteEvents`
(`indexer/db.go:990-1055`). -/
def eventsInitialMap : ValuesMap :=
  [("id", ⟨"UUID", []⟩), ("label", ⟨"TEXT", []⟩),
   ("transaction_hash", ⟨"TEXT", []⟩), ("log_index", ⟨"BIGINT", []⟩),
   ("block_number", ⟨"BIGINT", []⟩), ("block_hash", ⟨"TEXT", []⟩),
   ("block_timestamp", ⟨"BIGINT", []⟩), ("caller_address", ⟨"BYTEA", []⟩),
   ("origin_address", ⟨"BYTEA", []⟩), ("address", ⟨"BYTEA", []⟩),
   ("label_name", ⟨"TEXT", []⟩), ("label_type", ⟨"TEXT", []⟩),
   ("label_data", ⟨"jsonb", []⟩)]

/-- The loop body of `WriteEvents` (`indexer/db.go:1057-1093`). -/
def writeEventsRow (m : ValuesMap) (event : EventLabel) : ValuesMap :=
  match decodeAddress event.callerAddress with
  | .error _ => m
  | .ok callerAddressBytes =>
    match decodeAddress event.originAddress with
    | .error _ => m
    | .ok originAddressBytes =>
      match decodeAddress event.address with
      | .error _ => m
      | .ok addressBytes =>
        let m := updateValues m "id" .goUUID
        let m := updateValues m "label" (.goStr event.label)
        let m := updateValues m "transaction_hash" (.goStr event.transactionHash)
        let m := updateValues m "log_index" (.goUInt event.logIndex)
        let m := updateValues m "block_number" (.goUInt event.blockNumber)
        let m := updateValues m "block_hash" (.goStr event.blockHash)
        let m := updateValues m "block_timestamp" (.goUInt event.blockTimestamp)
        let m := updateValues m "caller_address" (.goBytes callerAddressBytes)
        let m := updateValues m "origin_address" (.goBytes originAddressBytes)
        let m := updateValues m "address" (.goBytes addressBytes)
        let m := updateValues m "label_name" (.goStr event.labelName)
        let m := updateValues m "label_type" (.goStr event.labelType)
        updateValues m "label_data" (.goStr event.labelData)

/-- `indexer/db.go:986` `WriteEvents`, returning the bulk insert it executes
(always `.ok`, as for `WriteTransactions`). -/
def WriteEvents (blockchain : String) (events : List EventLabel) :
    Except String InsertStmt :=
  let tableName := LabelsTableName blockchain
  let columns := ["id", "label", "transaction_hash", "log_index", "block_number",
    "block_hash", "block_timestamp", "caller_address", "origin_address",
    "address", "label_name", "label_type", "label_data"]
  let finalMap := events.foldl writeEventsRow eventsInitialMap
  .ok (executeBatchInsertStmt tableName columns finalMap "ON CONFLICT DO NOTHING")

/-- A parsed-or-nil `*big.Int` as it is handed to `updateValues` in
`WriteRawTransactions` (a nil result of `hexStringToBigInt` is a typed nil
pointer). -/
def bigIntToGoVal : Option Int → GoVal
  | none => .goNilPtr "big.Int"
  | some n => .goPtrBigInt n

/-- The column list of `WriteRawTransactions` (`indexer/db.go:1566-1573`):
`l1_block_number` is appended exactly for L1-anchored chains. -/
def rawTransactionsColumns (isL1 : Bool) : List String :=
  ["hash", "block_hash", "block_timestamp", "block_number",
   "from_address", "to_address", "gas", "gas_price", "input", "nonce",
   "max_fee_per_gas", "max_priority_fee_per_gas", "transaction_index",
   "transaction_type", "value"] ++ (if isL1 then ["l1_block_number"] else [])

/-- The `valuesMap` initialisation of `WriteRawTransactions`
(`indexer/db.go:1575-1662`); `indexed_at` is initialised but never listed in
`columns` nor updated. -/
def rawTransactionsInitialMap (isL1 : Bool) : ValuesMap :=
  [("hash", ⟨"TEXT", []⟩), ("block_hash", ⟨"TEXT", []⟩),
   ("block_timestamp", ⟨"BIGINT", []⟩), ("block_number", ⟨"BIGINT", []⟩),
   ("from_address", ⟨"BYTEA", []⟩), ("to_address", ⟨"BYTEA", []⟩),
   ("gas", ⟨"NUMERIC", []⟩), ("gas_price", ⟨"NUMERIC", []⟩),
   ("input", ⟨"TEXT", []⟩), ("nonce", ⟨"TEXT", []⟩),
   ("max_fee_per_gas", ⟨"NUMERIC", []⟩),
   ("max_priority_fee_per_gas", ⟨"NUMERIC", []⟩),
   ("transaction_index", ⟨"BIGINT", []⟩), ("transaction_type", ⟨"INTEGER", []⟩),
   ("value", ⟨"NUMERIC", []⟩),
   ("indexed_at", ⟨"TIMESTAMP WITH TIME ZONE", []⟩)] ++
  (if isL1 then [("l1_block_number", ⟨"BIGINT", []⟩)] else [])

/-- The results of the parse prefix of the `WriteRawTransactions` loop body
(`indexer/db.go:1666-1703`): all seven parses happen before any column
update. -/
structure ParsedRawTx where
  fromAddress : List Nat
  toAddress : List Nat
  gas : Option Int
  gasPrice : Option Int
  maxFeePerGas : Option Int
  maxPriorityFeePerGas : Option Int
  value : Option Int
  deriving DecidableEq, Repr

/-- The parse prefix of the `WriteRawTransactions` loop body
(`indexer/db.go:1666-1703`), in source order; the first failure is returned
(`return err`). -/
def parseRawTransaction (rawTransaction : RawTransaction) : Except String ParsedRawTx := do
  let fromAddress ← decodeAddress rawTransaction.fromAddress
  let toAddress ← decodeAddress rawTransaction.toAddress
  let gas ← hexStringToBigInt rawTransaction.gas
  let gasPrice ← hexStringToBigInt rawTransaction.gasPrice
  let maxFeePerGas ← hexStringToBigInt rawTransaction.maxFeePerGas
  let maxPriorityFeePerGas ← hexStringToBigInt rawTransaction.maxPriorityFeePerGas
  let value ← hexStringToBigInt rawTransaction.value
  pure { fromAddress := fromAddress, toAddress := toAddress, gas := gas,
         gasPrice := gasPrice, maxFeePerGas := maxFeePerGas,
         maxPriorityFeePerGas := maxPriorityFeePerGas, value := value }

/-- The loop body of `WriteRawTransactions` (`indexer/db.go:1665-1729`): any
address or hex-parse failure returns the error, aborting the whole write; the
dereferenced `l1BlockNumber` (or an untyped nil interface) is appended for
L1-anchored chains. -/
def writeRawTransactionsRow (isL1 : Bool) (m : ValuesMap)
    (rawTransaction : RawTransaction) : Except String ValuesMap := do
  let parsed ← parseRawTransaction rawTransaction
  let fromAddress := parsed.fromAddress
  let toAddress := parsed.toAddress
  let gas := parsed.gas
  let gasPrice := parsed.gasPrice
  let maxFeePerGas := parsed.maxFeePerGas
  let maxPriorityFeePerGas := parsed.maxPriorityFeePerGas
  let value := parsed.value
  let m := updateValues m "hash" (.goStr rawTransaction.hash)
  let m := updateValues m "block_hash" (.goStr rawTransaction.blockHash)
  let m := updateValues m "block_timestamp" (.goUInt rawTransaction.blockTimestamp)
  let m := updateValues m "block_number" (.goUInt rawTransaction.blockNumber)
  let m := updateValues m "from_address" (.goBytes fromAddress)
  let m := updateValues m "to_address" (.goBytes toAddress)
  let m := updateValues m "gas" (bigIntToGoVal gas)
  let m := updateValues m "gas_price" (bigIntToGoVal gasPrice)
  let m := updateValues m "input" (.goStr rawTransaction.input)
  let m := updateValues m "nonce" (.goStr rawTransaction.nonce)
  let m := updateValues m "max_fee_per_gas" (bigIntToGoVal maxFeePerGas)
  let m := updateValues m "max_priority_fee_per_gas" (bigIntToGoVal maxPriorityFeePerGas)
  let m := updateValues m "transaction_index" (.goUInt rawTransaction.transactionIndex)
  let m := updateValues m "transaction_type" (.goUInt rawTransaction.transactionType)
  let m := updateValues m "value" (bigIntToGoVal value)
  let m :=
    if isL1 then
      updateValues m "l1_block_number"
        (match rawTransaction.l1BlockNumber with
         | some n => .goUInt n
         | none => .goNil)
    else m
  pure m

/-- `indexer/db.go:1562` `WriteRawTransactions`, returning the bulk insert it
executes; a parse failure in any row aborts the write before the insert. -/
def WriteRawTransactions (blockchain : String)
    (rawTransactions : List RawTransaction) : Except String InsertStmt := do
  let tableName := CustomerDBTransactionsTableName blockchain
  let isL1 := IsBlockchainWithL1Chain blockchain
  let finalMap ← rawTransactions.foldlM (writeRawTransactionsRow isL1)
    (rawTransactionsInitialMap isL1)
  pure (executeBatchInsertStmt tableName (rawTransactionsColumns isL1) finalMap
    "ON CONFLICT DO NOTHING")

/-! ### The block-index writer (`indexer/db.go:449-533`) -/

/-- The column list of `writeBlockIndexToDB` (`indexer/db.go:455, 499-505`):
`l1_block_number` is appended exactly for L1-anchored chains. -/
def blockIndexColumns (isL1 : Bool) : List String :=
  ["block_number", "block_hash", "block_timestamp", "parent_hash", "row_id",
   "path", "transactions_indexed_at", "logs_indexed_at"] ++
  (if isL1 then ["l1_block_number"] else [])

/-- The `valuesMap` initialisation of `writeBlockIndexToDB`
(`indexer/db.go:457-505`). -/
def blockIndexInitialMap (isL1 : Bool) : ValuesMap :=
  [("block_number", ⟨"BIGINT", []⟩), ("block_hash", ⟨"TEXT", []⟩),
   ("block_timestamp", ⟨"BIGINT", []⟩), ("parent_hash", ⟨"TEXT", []⟩),
   ("row_id", ⟨"BIGINT", []⟩), ("path", ⟨"TEXT", []⟩),
   ("transactions_indexed_at", ⟨"TIMESTAMP", []⟩),
   ("logs_indexed_at", ⟨"TIMESTAMP", []⟩)] ++
  (if isL1 then [("l1_block_number", ⟨"BIGINT", []⟩)] else [])

/-- The loop body of `writeBlockIndexToDB` (`indexer/db.go:507-521`). -/
def writeBlockIndexRow (isL1 : Bool) (m : ValuesMap) (index : BlockIndex) : ValuesMap :=
  let m := updateValues m "block_number" (.goUInt index.blockNumber)
  let m := updateValues m "block_hash" (.goStr index.blockHash)
  let m := updateValues m "block_timestamp" (.goUInt index.blockTimestamp)
  let m := updateValues m "parent_hash" (.goStr index.parentHash)
  let m := updateValues m "row_id" (.goUInt index.rowID)
  let m := updateValues m "path" (.goStr index.path)
  let m := updateValues m "transactions_indexed_at" (.goStr "now()")
  let m := updateValues m "logs_indexed_at" (.goStr "now()")
  if isL1 then updateValues m "l1_block_number" (.goUInt index.l1BlockNumber) else m

/-- `indexer/db.go:449` `writeBlockIndexToDB`, returning the bulk insert it
executes; an unknown chain fails at table-name resolution. -/
def writeBlockIndexToDB (blockchain : String) (indexes : List BlockIndex) :
    Except String InsertStmt := do
  let tableName ← BlocksTableName blockchain
  let isL1 := IsBlockchainWithL1Chain blockchain
  let finalMap := indexes.foldl (writeBlockIndexRow isL1) (blockIndexInitialMap isL1)
  pure (executeBatchInsertStmt tableName (blockIndexColumns isL1) finalMap
    "ON CONFLICT (block_number) DO NOTHING")

/-! ### The multi-table customer write (`indexer/db.go:921-984`) -/

/-- The committed database state: the list of executed-and-committed bulk
inserts, in execution order. -/
abbrev DBState := List InsertStmt

/-- `indexer/db.go:921` `WriteDataToCustomerDB`. Control flow of the source,
including its error shadowing: the deferred commit/rollback handler tests the
function-scoped `err` set by `conn.Begin`, while each of the three writes
assigns a freshly declared `err :=` inside its `if` block. A write failure
therefore returns that error, but the deferred handler still sees `err == nil`
and COMMITS the transaction, so the statements already executed by the earlier
writes of the same call become visible. In this model a write fails only
before executing its insert (address/hex parsing in `WriteRawTransactions`;
database-side statement failures are not modelled), so the pending list at
that point holds exactly the inserts of the completed earlier writes. -/
def WriteDataToCustomerDB (blockchain : String) (txCalls : List TransactionLabel)
    (events : List EventLabel) (rawTransactions : List RawTransaction)
    (db : DBState) : Except String Unit × DBState :=
  match (if 0 < txCalls.length
         then (WriteTransactions blockchain txCalls).map (fun s => [s])
         else .ok []) with
  | .error e => (.error e, db)
  | .ok p1 =>
    match (if 0 < events.length
           then (WriteEvents blockchain events).map (fun s => [s])
           else .ok []) with
    | .error e => (.error e, db ++ p1)
    | .ok p2 =>
      match (if 0 < rawTransactions.length
             then (WriteRawTransactions blockchain rawTransactions).map (fun s => [s])
             else .ok []) with
      | .error e => (.error e, db ++ p1 ++ p2)
      | .ok p3 => (.ok (), db ++ p1 ++ p2 ++ p3)

/-! ### The proto block decoder (`evm/generators.go:906-1148`)

`DecodeProtoEntireBlockToLabels` walks every block (concurrently, one worker
per block; within a block the transactions and their logs are processed
sequentially), producing transaction labels and event labels. The external
collaborators — the ABI parser `seer_common.GetABI` (behind the entry's
one-shot gate), the two argument decoders, the receipt fetch and
`json.Marshal` — are oracle parameters. The per-record processing below is
the loop body for one transaction (`:950-1053`) and for one log
(`:1056-1121`). -/

/-- Modelled from the spec: the proto `EventLog` message (spec §6
"Artifact"), fields as used by the decoder. -/
structure LogJson where
  address : String
  topics : List String
  data : String
  blockNumber : Nat
  transactionHash : String
  blockHash : String
  logIndex : Nat
  deriving DecidableEq, Repr

/-- Modelled from the spec: the proto `Transaction` message (spec §6
"Artifact"), fields as used by the decoder. -/
structure TxJson where
  hash : String
  blockHash : String
  blockNumber : Nat
  fromAddress : String
  toAddress : String
  input : String
  gas : String
  gasPrice : String
  maxFeePerGas : String
  maxPriorityFeePerGas : String
  nonce : String
  value : String
  transactionIndex : Nat
  transactionType : Nat
  logs : List LogJson
  deriving DecidableEq, Repr

/-- A JSON-able Go value as it appears in the decoder's
`map[string]interface{}` argument maps. -/
inductive JVal where
  | jStr (s : String)
  | jNum (n : Int)
  | jTx (t : TxJson)
  | jLog (l : LogJson)
  | jErrVal (msg : String)
  | jOther (tag : String)
  deriving DecidableEq, Repr

/-- A Go `map[string]interface{}` as an association list (JSON object). -/
abbrev JMap := List (String × JVal)

def mapKeys (m : JMap) : List String := m.map Prod.fst

/-- Go map assignment `m[k] = v`: overwrite an existing key, else add it. -/
def mapSet (m : JMap) (k : String) (v : JVal) : JMap :=
  if m.any (fun kv => kv.1 = k) then
    m.map (fun kv => if kv.1 = k then (k, v) else kv)
  else m ++ [(k, v)]

/-- Modelled from the spec: `indexer.AbiEntry` (spec §3 "ABI Entry"), the
fields the decoder reads; the lazily parsed descriptor lives in the
`getAbi` oracle. -/
structure AbiEntry where
  abiJSON : String
  abiName : String
  deriving DecidableEq, Repr

/-- The registry `map[string]map[string]*indexer.AbiEntry`, as a function
(`none` covers both a missing address and a missing selector). -/
abbrev AbiMap := String → String → Option AbiEntry

/-- The decoder's external collaborators. `getAbi` is
`seer_common.GetABI` behind the entry's one-shot gate (`none` covers both a
parse error and a nil descriptor — the code treats them identically);
`decodeTxInput` / `decodeLogArgs` are the `seer_common` argument decoders;
`receiptStatus` is `Client.TransactionReceipt` projected to `receipt.Status`;
`marshal` is `json.Marshal`. -/
structure DecodeOracles where
  getAbi : String → Option String
  decodeTxInput : String → List Nat → Except String JMap
  decodeLogArgs : String → List String → String → Except String JMap
  receiptStatus : String → Except String Nat
  marshal : JMap → Except String String

/-- Outcome of the per-transaction loop body: no label (`skipped`, the two
`continue` paths without an error), an error sent to the error channel
(`errored`, which in the source also skips the transaction's logs), or an
emitted label together with the argument map that was marshalled into its
`labelData`. -/
inductive TxStep where
  | skipped
  | errored (msg : String)
  | labeled (l : TransactionLabel) (argsMap : JMap)
  deriving DecidableEq, Repr

/-- Outcome of the per-log loop body. -/
inductive LogStep where
  | skipped
  | errored (msg : String)
  | labeled (l : EventLabel) (argsMap : JMap)
  deriving DecidableEq, Repr

/-- The transaction-label part of the decoder's per-transaction loop body
(`evm/generators.go:975-1053`). Inputs shorter than 10 characters are plain
value transfers and are skipped; otherwise the selector is the first 10
characters of the input and drives the registry lookup. -/
def processTxLabel (O : DecodeOracles) (abiMap : AbiMap) (blockTimestamp : Nat)
    (tx : TxJson) : TxStep :=
  if tx.input.length < 10 then .skipped
  else
    let selector := String.mk (tx.input.data.take 10)
    match abiMap tx.toAddress selector with
    | none => .skipped
    | some txAbiEntry =>
      match O.getAbi txAbiEntry.abiJSON with
      | none => .errored ("error getting ABI for address " ++ tx.toAddress)
      | some abi =>
        match hexDecodeList (tx.input.data.drop 2) with
        | .error _ => .errored ("error decoding input data for tx " ++ tx.hash)
        | .ok inputData =>
          let argsAndLabel :=
            match O.decodeTxInput abi inputData with
            | .ok m => (m, SeerCrawlerLabel)
            | .error decodeErr =>
              ([("input_raw", JVal.jTx tx), ("abi", JVal.jStr txAbiEntry.abiJSON),
                ("selector", JVal.jStr selector), ("error", JVal.jErrVal decodeErr)],
               SeerCrawlerRawLabel)
          match O.receiptStatus tx.hash with
          | .error _ => .errored ("error getting transaction receipt for tx " ++ tx.hash)
          | .ok status =>
            let decodedArgsTx :=
              mapSet argsAndLabel.1 "status" (.jNum (if status = 1 then 1 else 0))
            match O.marshal decodedArgsTx with
            | .error _ => .errored ("error converting decodedArgsTx to JSON for tx " ++ tx.hash)
            | .ok txLabelDataStr =>
              .labeled
                { address := tx.toAddress
                  blockNumber := tx.blockNumber
                  blockHash := tx.blockHash
                  callerAddress := tx.fromAddress
                  labelName := txAbiEntry.abiName
                  labelType := "tx_call"
                  originAddress := tx.fromAddress
                  label := argsAndLabel.2
                  transactionHash := tx.hash
                  labelData := txLabelDataStr
                  blockTimestamp := blockTimestamp }
                decodedArgsTx

/-- The topic selector of the per-log loop body
(`evm/generators.go:1060-1067`): `topics[0]` when present, else `"0x0"`. -/
def logTopicSelector (e : LogJson) : String :=
  match e.topics with
  | [] => "0x0"
  | t :: _ => t

/-- The decoder's per-log loop body (`evm/generators.go:1056-1121`); no
receipt is fetched and no `status` key is added for events. -/
def processLogLabel (O : DecodeOracles) (abiMap : AbiMap) (blockTimestamp : Nat)
    (txFromAddress : String) (e : LogJson) : LogStep :=
  let topicSelector := logTopicSelector e
  match abiMap e.address topicSelector with
  | none => .skipped
  | some abiEntryLog =>
    match O.getAbi abiEntryLog.abiJSON with
    | none => .errored ("error getting ABI for log address " ++ e.address)
    | some abi =>
      let argsAndLabel :=
        match O.decodeLogArgs abi e.topics e.data with
        | .ok m => (m, SeerCrawlerLabel)
        | .error decodeErr =>
          ([("input_raw", JVal.jLog e), ("abi", JVal.jStr abiEntryLog.abiJSON),
            ("selector", JVal.jStr topicSelector), ("error", JVal.jErrVal decodeErr)],
           SeerCrawlerRawLabel)
      match O.marshal argsAndLabel.1 with
      | .error _ => .errored ("error converting decodedArgsLogs to JSON for tx " ++ e.transactionHash)
      | .ok labelDataStr =>
        .labeled
          { label := argsAndLabel.2
            labelName := abiEntryLog.abiName
            labelType := "event"
            blockNumber := e.blockNumber
            blockHash := e.blockHash
            address := e.address
            callerAddress := ""
            originAddress := txFromAddress
            transactionHash := e.transactionHash
            labelData := labelDataStr
            blockTimestamp := blockTimestamp
            logIndex := e.logIndex }
          argsAndLabel.1

/-! ### The adaptive log scanner (`evm/generators.go:372-432`) -/

/-- One provider answer to `eth_getLogs` over a window. -/
inductive RpcResult (Log : Type) where
  | ok (logs : List Log)
  | err (msg : String)

/-- Result of the scanner loop; `outOfFuel` marks iteration budgets that are
too small (the termination theorem shows a computable budget that never runs
out). The `windows` component instruments the loop with the successfully
queried sub-ranges, in query order; it does not influence control flow. -/
inductive FilterResult (Log : Type) where
  | ok (windows : List (Int × Int)) (logs : List Log)
  | err (msg : String)
  | outOfFuel

/-- The provider error marker of `evm/generators.go:399`. -/
def tooManyResultsMarker : String := "query returned more than 10000 results"

/-- Go `strings.Contains(msg, tooManyResultsMarker)`. -/
def containsMarker (msg : String) : Bool :=
  (List.range (msg.data.length + 1)).any
    (fun i => tooManyResultsMarker.data.isPrefixOf (msg.data.drop i))

/-- One iteration of the scanner loop either finishes with a result or
continues with a new state (`fromBlock`, `batchStep`, accumulators). -/
inductive StepOut (Log : Type) where
  | done (r : FilterResult Log)
  | next (fromBlock batchStep : Int) (windows : List (Int × Int)) (logs : List Log)

/-- The body of the `for` loop of `ClientFilterLogs`
(`evm/generators.go:378-429`). `big.Int.Div` is Euclidean division, which is
`Int` division `/` in Lean. On the marker error the step is halved and the
same window retried; if the halved step falls below one block the scanner
advances to `nextBlock + 1`; any other error finishes with that error; on
success the logs are appended and the scanner advances to `nextBlock + 1`;
either advance past `toBlock` finishes with the accumulated logs. -/
def filterLogsStep {Log : Type} (provider : Int → Int → RpcResult Log)
    (toBlock fromBlock batchStep : Int) (windows : List (Int × Int))
    (logs : List Log) : StepOut Log :=
  let nextBlock := if toBlock < fromBlock + batchStep then toBlock else fromBlock + batchStep
  match provider fromBlock nextBlock with
  | .err msg =>
    if containsMarker msg then
      let batchStep' := batchStep / 2
      if batchStep' < 1 then
        let fromBlock' := nextBlock + 1
        if toBlock < fromBlock' then .done (.ok windows logs)
        else .next fromBlock' batchStep' windows logs
      else .next fromBlock batchStep' windows logs
    else .done (.err msg)
  | .ok result =>
    let logs' := logs ++ result
    let windows' := windows ++ [(fromBlock, nextBlock)]
    let fromBlock' := nextBlock + 1
    if toBlock < fromBlock' then .done (.ok windows' logs')
    else .next fromBlock' batchStep windows' logs'

/-- The `for` loop of `ClientFilterLogs`, fuelled iteration of
`filterLogsStep`. -/
def clientFilterLogsLoop {Log : Type} (provider : Int → Int → RpcResult Log)
    (toBlock : Int) :
    Nat → Int → Int → List (Int × Int) → List Log → FilterResult Log
  | 0, _, _, _, _ => .outOfFuel
  | fuel + 1, fromBlock, batchStep, windows, logs =>
    match filterLogsStep provider toBlock fromBlock batchStep windows logs with
    | .done r => r
    | .next fromBlock' batchStep' windows' logs' =>
      clientFilterLogsLoop provider toBlock fuel fromBlock' batchStep' windows' logs'

/-- An iteration budget sufficient for `clientFilterLogsLoop` on `[from, to]`
(one more than the maximal value of the loop measure). -/
def filterLogsFuel (fromBlock toBlock : Int) : Nat :=
  (toBlock + 1 - fromBlock).toNat * ((toBlock - fromBlock).toNat + 2) +
    (toBlock - fromBlock).toNat + 1

/-- `evm/generators.go:372` `ClientFilterLogs`: initial step is
`toBlock - fromBlock`, both accumulators empty. -/
def ClientFilterLogs {Log : Type} (provider : Int → Int → RpcResult Log)
    (fromBlock toBlock : Int) : FilterResult Log :=
  clientFilterLogsLoop provider toBlock (filterLogsFuel fromBlock toBlock)
    fromBlock (toBlock - fromBlock) [] []

/-! ### The bounded-parallel fetcher (`evm/generators.go:471-540`)

One task per block in `[from, to]`; a task either returns a block, returns an
error, or panics (the `recover` handler converts a panic to an error naming
the block). The semaphore and the mutex only bound parallelism and order; the
collected multiset of per-task effects is deterministic, and is modelled here
in block order (the source guarantees no order). -/

/-- Behaviour of one `GetBlockByNumber` task. -/
inductive FetchOutcome (Block : Type) where
  | ok (b : Block)
  | err (msg : String)
  | crashed (reason : String)

/-- The `blockNumbersRange` slice of `evm/generators.go:480-483`:
`[from, from+1, …, to]`. -/
def blockNumbersRange (fromBlock toBlock : Int) : List Int :=
  (List.range (toBlock + 1 - fromBlock).toNat).map (fun i => fromBlock + i)

/-- What one task contributes: its block, or the error it sends to the error
channel (a panic is converted by the deferred `recover` handler,
`evm/generators.go:496-500`). -/
def taskResult {Block : Type} (fetch : Int → FetchOutcome Block) (b : Int) :
    Except String Block :=
  match fetch b with
  | .ok blk => .ok blk
  | .err e => .error e
  | .crashed r => .error ("panic in goroutine for block " ++ toString b ++ ": " ++ r)

/-- `evm/generators.go:471` `FetchBlocksInRangeAsync`: after all tasks settle
the collected errors are drained; if any task failed the aggregate error list
is returned and the blocks are discarded (`return nil, fmt.Errorf...`),
otherwise all fetched blocks are returned with no error. The second component
models the aggregate error as the list of collected messages (the source
joins them with "; " into one error). -/
def FetchBlocksInRangeAsync {Block : Type} (fetch : Int → FetchOutcome Block)
    (fromBlock toBlock : Int) : List Block × List String :=
  let nums := blockNumbersRange fromBlock toBlock
  let blocks := nums.filterMap (fun b =>
    match taskResult fetch b with
    | .ok blk => some blk
    | .error _ => none)
  let collectedErrors := nums.filterMap (fun b =>
    match taskResult fetch b with
    | .error e => some e
    | .ok _ => none)
  if 0 < collectedErrors.length then ([], collectedErrors) else (blocks, [])

/-! ### Observation helpers and concrete sample inputs -/

/-- The value array a statement carries for a named column (empty for a
column it does not insert). -/
def stmtColumn (stmt : InsertStmt) (c : String) : List SqlVal :=
  (((stmt.columns.zip stmt.colValues).find? (fun kv => kv.1 = c)).map Prod.snd).getD []

/-- The logs a provider answers for a window, empty on error. -/
def windowLogs {Log : Type} (provider : Int → Int → RpcResult Log)
    (w : Int × Int) : List Log :=
  match provider w.1 w.2 with
  | .ok ls => ls
  | .err _ => []

/-- Concatenation of the providers' answers over a window list, in order. -/
def windowsConcat {Log : Type} (provider : Int → Int → RpcResult Log) :
    List (Int × Int) → List Log
  | [] => []
  | w :: ws => windowLogs provider w ++ windowsConcat provider ws

/-- The windows are in ascending block order starting at `lo`: each window is
non-empty (`a ≤ b`) and starts strictly after the previous window ends. -/
def AscendingFrom : Int → List (Int × Int) → Prop
  | _, [] => True
  | lo, (a, b) :: rest => lo ≤ a ∧ a ≤ b ∧ AscendingFrom (b + 1) rest

/-- The loop measure of the scanner: lexicographic
(remaining blocks, current step) packed into one natural number. -/
def filterLogsMeasure (toBlock fromBlock batchStep : Int) : Nat :=
  (toBlock + 1 - fromBlock).toNat * (batchStep.toNat + 2) + batchStep.toNat

/-- A transaction label whose three addresses decode, for the
`WriteDataToCustomerDB` evaluation. -/
def sampleTxCallLabel : TransactionLabel :=
  { address := "0xab", blockNumber := 1, blockHash := "0xbh",
    callerAddress := "0xcd", labelName := "transfer", labelType := "tx_call",
    originAddress := "0xcd", label := "seer", transactionHash := "0xth",
    labelData := "data", blockTimestamp := 7 }

/-- A raw transaction whose `value` field is the empty string (absent), all
other fields parse. -/
def sampleRawTxNullValue : RawTransaction :=
  { hash := "0xh1", blockHash := "0xbh", fromAddress := "0xab",
    toAddress := "0xcd", input := "0x", gas := "0x1", gasPrice := "0x2",
    nonce := "0x0", value := "", maxFeePerGas := "", maxPriorityFeePerGas := "",
    blockTimestamp := 7, blockNumber := 1, transactionIndex := 0,
    transactionType := 2, l1BlockNumber := none }

/-- A raw transaction whose `value` field is not valid hex; every field
before it parses. -/
def sampleRawTxBadValue : RawTransaction :=
  { hash := "0xh2", blockHash := "0xbh", fromAddress := "0xab",
    toAddress := "0xcd", input := "0x", gas := "0x1", gasPrice := "0x2",
    nonce := "0x0", value := "0xzz", maxFeePerGas := "", maxPriorityFeePerGas := "",
    blockTimestamp := 7, blockNumber := 1, transactionIndex := 0,
    transactionType := 2, l1BlockNumber := none }

/-- Oracles that never find an ABI and fail every decode. -/
def nullOracles : DecodeOracles :=
  { getAbi := fun _ => none
    decodeTxInput := fun _ _ => .error "undecodable"
    decodeLogArgs := fun _ _ _ => .error "undecodable"
    receiptStatus := fun _ => .error "no receipt"
    marshal := fun _ => .ok "marshalled" }

/-- The empty ABI registry. -/
def emptyAbiMap : AbiMap := fun _ _ => none

/-- A transaction whose input is shorter than a selector. -/
def sampleShortTx : TxJson :=
  { hash := "0xh3", blockHash := "0xbh", blockNumber := 5,
    fromAddress := "0xfrom", toAddress := "0xto", input := "0xab",
    gas := "0x1", gasPrice := "0x1", maxFeePerGas := "", maxPriorityFeePerGas := "",
    nonce := "0x0", value := "0x0", transactionIndex := 0, transactionType := 2,
    logs := [] }

/-- A plain value transfer: input is exactly `"0x"`. -/
def sample0xTx : TxJson :=
  { hash := "0xh4", blockHash := "0xbh", blockNumber := 5,
    fromAddress := "0xfrom", toAddress := "0xto", input := "0x",
    gas := "0x1", gasPrice := "0x1", maxFeePerGas := "", maxPriorityFeePerGas := "",
    nonce := "0x0", value := "0x0", transactionIndex := 0, transactionType := 2,
    logs := [] }

/-- Oracles for the decode-failure evaluation: the ABI parses, argument
decoding fails, the receipt reports success, marshalling succeeds. -/
def cxOracles : DecodeOracles :=
  { getAbi := fun _ => some "parsedAbi"
    decodeTxInput := fun _ _ => .error "cannot decode"
    decodeLogArgs := fun _ _ _ => .error "cannot decode"
    receiptStatus := fun _ => .ok 1
    marshal := fun _ => .ok "serialized" }

def cxEntry : AbiEntry := { abiJSON := "abiJson", abiName := "transfer" }

/-- A registry holding `cxEntry` for the sample transaction's address and
selector and for the sample log's address and topic. -/
def cxAbiMap : AbiMap := fun addr sel =>
  if addr = "0xto" ∧ sel = "0xa9059cbb" then some cxEntry
  else if addr = "0xlogaddr" ∧ sel = "0xtopic0" then some cxEntry
  else none

/-- A transaction carrying exactly a `transfer` selector as input. -/
def cxTx : TxJson :=
  { hash := "0xhash", blockHash := "0xbh", blockNumber := 5,
    fromAddress := "0xfrom", toAddress := "0xto", input := "0xa9059cbb",
    gas := "0x1", gasPrice := "0x1", maxFeePerGas := "", maxPriorityFeePerGas := "",
    nonce := "0x0", value := "0x0", transactionIndex := 0, transactionType := 2,
    logs := [] }

/-- A log with one topic, matched by `cxAbiMap`. -/
def cxLog : LogJson :=
  { address := "0xlogaddr", topics := ["0xtopic0"], data := "0xdata",
    blockNumber := 5, transactionHash := "0xhash", blockHash := "0xbh",
    logIndex := 3 }

/-- The argument map the decoder builds for a failed transaction decode,
after the receipt status has been added
(`evm/generators.go:1005-1010, 1025-1029`). -/
def txFailMap (tx : TxJson) (entry : AbiEntry) (selector decodeErr : String)
    (status : Nat) : JMap :=
  mapSet
    [("input_raw", JVal.jTx tx), ("abi", JVal.jStr entry.abiJSON),
     ("selector", JVal.jStr selector), ("error", JVal.jErrVal decodeErr)]
    "status" (.jNum (if status = 1 then 1 else 0))

/-- The argument map the decoder builds for a failed log decode
(`evm/generators.go:1090-1095`). -/
def logFailMap (e : LogJson) (entry : AbiEntry) (decodeErr : String) : JMap :=
  [("input_raw", JVal.jLog e), ("abi", JVal.jStr entry.abiJSON),
   ("selector", JVal.jStr (logTopicSelector e)), ("error", JVal.jErrVal decodeErr)]

/-- A scanner provider that reports the too-many-results marker on every
window of three or more blocks and returns the window bounds as logs
otherwise. -/
def filterWitnessProvider : Int → Int → RpcResult Int := fun a b =>
  if 2 ≤ b - a then .err tooManyResultsMarker else .ok [a, b]

/-- A fetcher behaviour that fails exactly at block 2. -/
def fetchWitness : Int → FetchOutcome Int := fun b =>
  if b = 2 then .err "boom" else .ok b

/-- A fetcher behaviour that succeeds everywhere. -/
def fetchWitnessOk : Int → FetchOutcome Int := fun b => .ok b

/-! ## Helper lemmas -/

theorem string_append_right_cancel (a b s : String) (h : a ++ s = b ++ s) :
    a = b := by
  apply String.ext
  have hd : a.data ++ s.data = b.data ++ s.data := by
    have h1 := congrArg String.data h
    rwa [String.data_append, String.data_append] at h1
  exact List.append_cancel_right hd

theorem goParsenum_length : ∀ (s : List Char) (n : Nat) (b : Bool),
    (goParsenum s n b).2.2.length ≤ s.length := by
  intro s
  induction s with
  | nil => intro n b; exact Nat.le_refl _
  | cons c cs ih =>
    intro n b
    simp only [goParsenum]
    by_cases hd : '0' ≤ c ∧ c ≤ '9'
    · rw [if_pos hd]
      by_cases ho : 1000000 < n
      · rw [if_pos ho]; exact Nat.zero_le _
      · rw [if_neg ho]
        exact Nat.le_trans (ih _ _) (Nat.le_succ _)
    · rw [if_neg hd]

theorem goFlags_length : ∀ s : List Char, (goFlags s).length ≤ s.length := by
  intro s
  induction s with
  | nil => exact Nat.le_refl _
  | cons c cs ih =>
    simp only [goFlags]
    by_cases hf : c = '#' ∨ c = '0' ∨ c = '+' ∨ c = '-' ∨ c = ' '
    · rw [if_pos hf]; exact Nat.le_trans ih (Nat.le_succ _)
    · rw [if_neg hf]

theorem goParseArgNumber_length (cs : List Char) :
    (goParseArgNumber cs).2.length ≤ cs.length := by
  unfold goParseArgNumber
  by_cases h2 : cs.length < 2
  · rw [if_pos h2]
  · rw [if_neg h2]
    cases h : cs.findIdx? (fun c => c = ']') with
    | none => exact Nat.le_refl _
    | some j =>
      show (cs.drop (j + 1)).length ≤ cs.length
      rw [List.length_drop]
      exact Nat.sub_le _ _

theorem goArgNumber_length : ∀ s : List Char, (goArgNumber s).2.2.length ≤ s.length
  | [] => Nat.le_refl _
  | c :: cs => by
    simp only [goArgNumber]
    by_cases hb : c = '['
    · rw [if_pos hb]
      exact Nat.le_trans (goParseArgNumber_length cs) (Nat.le_succ _)
    · rw [if_neg hb]

theorem goStageArgNum_length (st : VerbState) :
    (goStageArgNum st).rest.length ≤ st.rest.length :=
  goArgNumber_length st.rest

theorem goStageWidth_length (st : VerbState) :
    (goStageWidth st).rest.length ≤ st.rest.length := by
  unfold goStageWidth
  by_cases h : st.rest.head? = some '*'
  · rw [if_pos h]
    show st.rest.tail.length ≤ st.rest.length
    rw [List.length_tail]
    exact Nat.sub_le _ _
  · rw [if_neg h]
    exact goParsenum_length st.rest 0 false

theorem goStagePrec_length (st : VerbState) :
    (goStagePrec st).rest.length ≤ st.rest.length := by
  dsimp only [goStagePrec]
  by_cases h : st.rest.head? = some '.' ∧ st.rest.tail ≠ []
  · rw [if_pos h]
    have hbase : (goStageArgNum { st with
        goodArgNum := st.goodArgNum && !st.afterIndex
        rest := st.rest.tail }).rest.length ≤ st.rest.length := by
      refine Nat.le_trans (goStageArgNum_length _) ?_
      show st.rest.tail.length ≤ st.rest.length
      rw [List.length_tail]
      exact Nat.sub_le _ _
    by_cases h2 : (goStageArgNum { st with
        goodArgNum := st.goodArgNum && !st.afterIndex
        rest := st.rest.tail }).rest.head? = some '*'
    · rw [if_pos h2]
      refine Nat.le_trans ?_ hbase
      show (goStageArgNum _).rest.tail.length ≤ _
      rw [List.length_tail]
      exact Nat.sub_le _ _
    · rw [if_neg h2]
      exact Nat.le_trans (goParsenum_length _ 0 false) hbase
  · rw [if_neg h]

theorem goStageArgNumC_length (st : VerbState) :
    (goStageArgNumC st).rest.length ≤ st.rest.length := by
  unfold goStageArgNumC
  by_cases h : st.afterIndex = true
  · rw [if_pos h]
  · rw [if_neg h]
    exact goStageArgNum_length st

theorem goStageVerb_length (st : VerbState) :
    (goStageVerb st).2.length ≤ st.rest.length := by
  unfold goStageVerb
  cases hr : st.rest with
  | nil => exact Nat.le_refl _
  | cons v cs =>
    show (if v = '%' then (st.emitted ++ ['%'], cs)
        else if st.goodArgNum = false then
          (st.emitted ++ '%' :: '!' :: v :: "(BADINDEX)".data, cs)
        else (st.emitted ++ '%' :: '!' :: v :: "(MISSING)".data, cs)).2.length ≤
      (v :: cs).length
    by_cases h1 : v = '%'
    · rw [if_pos h1]
      exact Nat.le_succ _
    · rw [if_neg h1]
      by_cases h2 : st.goodArgNum = false
      · rw [if_pos h2]
        exact Nat.le_succ _
      · rw [if_neg h2]
        exact Nat.le_succ _

theorem goVerb_length (s : List Char) : (goVerb s).2.length ≤ s.length := by
  unfold goVerb
  refine Nat.le_trans (goStageVerb_length _) (Nat.le_trans (goStageArgNumC_length _)
    (Nat.le_trans (goStagePrec_length _) (Nat.le_trans (goStageWidth_length _)
      (Nat.le_trans (goStageArgNum_length _) ?_))))
  exact goFlags_length s

/-- Fuel irrelevance of `doPrintf`: any budget of at least the format's length
gives the same output, because every iteration consumes at least one character
of the format (`goVerb` never lengthens its input). This justifies `Sprintf`
running `doPrintf` with budget `format.data.length`: it computes the limit of
Go's unbounded `formatLoop`. -/
theorem doPrintf_budget : ∀ (fuel₁ fuel₂ : Nat) (s : List Char),
    s.length ≤ fuel₁ → s.length ≤ fuel₂ → doPrintf fuel₁ s = doPrintf fuel₂ s := by
  intro fuel₁
  induction fuel₁ with
  | zero =>
    intro fuel₂ s h1 _
    have hs : s = [] := by
      cases s with
      | nil => rfl
      | cons a l => simp at h1
    subst hs
    cases fuel₂ <;> rfl
  | succ n ih =>
    intro fuel₂ s h1 h2
    cases s with
    | nil => cases fuel₂ <;> rfl
    | cons c rest =>
      cases fuel₂ with
      | zero => simp at h2
      | succ m =>
        have hr1 : rest.length ≤ n := by
          simp only [List.length_cons] at h1; omega
        have hr2 : rest.length ≤ m := by
          simp only [List.length_cons] at h2; omega
        by_cases hc : c = '%'
        · simp only [doPrintf, if_pos hc]
          have hg := goVerb_length rest
          rw [ih m (goVerb rest).2 (Nat.le_trans hg hr1) (Nat.le_trans hg hr2)]
        · simp only [doPrintf, if_neg hc]
          rw [ih m rest hr1 hr2]

/-- A format string with no `%` is copied unchanged by `doPrintf`. -/
theorem doPrintf_no_percent : ∀ (fuel : Nat) (s : List Char), s.length ≤ fuel →
    (∀ c ∈ s, c ≠ '%') → doPrintf fuel s = s := by
  intro fuel
  induction fuel with
  | zero =>
    intro s hlen _
    cases s with
    | nil => rfl
    | cons c cs => simp at hlen
  | succ n ih =>
    intro s hlen hnp
    cases s with
    | nil => rfl
    | cons c cs =>
      have hc : c ≠ '%' := hnp c (List.mem_cons_self c cs)
      have hlen' : cs.length ≤ n := by
        simp only [List.length_cons] at hlen; omega
      simp only [doPrintf, if_neg hc]
      rw [ih cs hlen' (fun x hx => hnp x (List.mem_cons_of_mem c hx))]

/-- `Sprintf` is the identity on `%`-free format strings. -/
theorem sprintf_no_percent {s : String} (h : ∀ c ∈ s.data, c ≠ '%') :
    Sprintf s = s := by
  unfold Sprintf
  rw [doPrintf_no_percent s.data.length s.data (Nat.le_refl _) h]

/-- On a `%`-free chain string the labels table name is the plain
concatenation `chain_labels`. -/
theorem labelsTableName_no_percent {c : String} (h : ∀ ch ∈ c.data, ch ≠ '%') :
    LabelsTableName c = c ++ "_labels" := by
  unfold LabelsTableName
  apply sprintf_no_percent
  intro ch hch
  rw [String.data_append] at hch
  rcases List.mem_append.mp hch with h1 | h2
  · exact h ch h1
  · have hs : ∀ x ∈ "_labels".data, x ≠ '%' := by decide
    exact hs ch h2

theorem except_bind_ok {ε α β : Type} (a : α) (f : α → Except ε β) :
    (Except.ok a : Except ε α) >>= f = f a := rfl

theorem except_bind_error {ε α β : Type} (e : ε) (f : α → Except ε β) :
    (Except.error e : Except ε α) >>= f = Except.error e := rfl

theorem except_pure {ε α : Type} (a : α) :
    (pure a : Except ε α) = Except.ok a := rfl

theorem blocksTableName_unknown {c : String} (h : c ∉ knownChains) :
    BlocksTableName c = .error "Unsupported blockchain" := by
  simp only [knownChains, List.mem_cons, List.not_mem_nil, or_false, not_or] at h
  obtain ⟨h1, h2, h3, h4, h5, h6, h7, h8, h9, h10, h11, h12, h13, h14, h15, h16, h17, h18⟩ := h
  unfold BlocksTableName
  rw [if_neg h1, if_neg h2, if_neg h3, if_neg h4, if_neg h5, if_neg h6,
    if_neg h7, if_neg h8, if_neg h9, if_neg h10, if_neg h11, if_neg h12,
    if_neg h13, if_neg h14, if_neg h15, if_neg h16, if_neg h17, if_neg h18]

theorem transactionsTableName_unknown {c : String} (h : c ∉ knownChains) :
    TransactionsTableName c = .error "Unsupported blockchain" := by
  simp only [knownChains, List.mem_cons, List.not_mem_nil, or_false, not_or] at h
  obtain ⟨h1, h2, h3, h4, h5, h6, h7, h8, h9, h10, h11, h12, h13, h14, h15, h16, h17, h18⟩ := h
  unfold TransactionsTableName
  rw [if_neg h1, if_neg h2, if_neg h3, if_neg h4, if_neg h5, if_neg h6,
    if_neg h7, if_neg h8, if_neg h9, if_neg h10, if_neg h11, if_neg h12,
    if_neg h13, if_neg h14, if_neg h15, if_neg h16, if_neg h17, if_neg h18]

theorem blocksTableName_known :
    ∀ c ∈ knownChains, BlocksTableName c = .ok (c ++ "_blocks") := by
  decide

theorem transactionsTableName_known :
    ∀ c ∈ knownChains, TransactionsTableName c = .ok (c ++ "_transactions") := by
  decide

theorem blocksTableName_ok_shape {c t : String} (h : BlocksTableName c = .ok t) :
    t = c ++ "_blocks" := by
  by_cases hc : c ∈ knownChains
  · rw [blocksTableName_known c hc] at h
    cases h
    rfl
  · rw [blocksTableName_unknown hc] at h
    cases h

theorem transactionsTableName_ok_shape {c t : String}
    (h : TransactionsTableName c = .ok t) : t = c ++ "_transactions" := by
  by_cases hc : c ∈ knownChains
  · rw [transactionsTableName_known c hc] at h
    cases h
    rfl
  · rw [transactionsTableName_unknown hc] at h
    cases h

theorem mem_blockIndexColumns_l1 (b : Bool) :
    "l1_block_number" ∈ blockIndexColumns b ↔ b = true := by
  cases b <;> decide

theorem mem_rawTransactionsColumns_l1 (b : Bool) :
    "l1_block_number" ∈ rawTransactionsColumns b ↔ b = true := by
  cases b <;> decide

theorem writeBlockIndexToDB_ok_columns {c : String} {idxs : List BlockIndex}
    {stmt : InsertStmt} (h : writeBlockIndexToDB c idxs = .ok stmt) :
    stmt.columns = blockIndexColumns (IsBlockchainWithL1Chain c) := by
  cases hb : BlocksTableName c with
  | error e =>
    simp only [writeBlockIndexToDB, hb, except_bind_error] at h
    cases h
  | ok tn =>
    simp only [writeBlockIndexToDB, hb, except_bind_ok, except_pure] at h
    cases h
    rfl

theorem writeRawTransactions_ok_columns {c : String} {txs : List RawTransaction}
    {stmt : InsertStmt} (h : WriteRawTransactions c txs = .ok stmt) :
    stmt.columns = rawTransactionsColumns (IsBlockchainWithL1Chain c) := by
  cases hf : txs.foldlM (writeRawTransactionsRow (IsBlockchainWithL1Chain c))
      (rawTransactionsInitialMap (IsBlockchainWithL1Chain c)) with
  | error e =>
    simp only [WriteRawTransactions, hf, except_bind_error] at h
    cases h
  | ok fm =>
    simp only [WriteRawTransactions, hf, except_bind_ok, except_pure] at h
    cases h
    rfl

/-! ## Claim theorems -/

/-- C3, corrected, counterexample: the labels table-name resolver performs no
whitelist check — a chain string outside the known-chain whitelist still
yields a table name instead of failing. -/
theorem claim_c3_counterexample :
    "unknown_chain" ∉ knownChains ∧
      LabelsTableName "unknown_chain" = "unknown_chain_labels" :=
  ⟨by decide, rfl⟩

/-- C3 (amended): the blocks and transactions table-name resolvers map every
whitelisted chain C to `C_blocks` / `C_transactions`, are injective on
success, and fail on every chain outside the whitelist. The labels resolver
performs no whitelist check and never fails; because the chain string is
passed through `fmt.Sprintf` as the format string, on every chain free of
`%` — in particular every whitelisted chain, and unknown chains such as the
counterexample — it returns `C_labels`, injectively over such strings, while
a `%` in the chain is expanded as a fmt directive rather than rejected.
(Stability is inherent: all three are pure functions of the chain string.) -/
theorem claim_c3_amended :
    (∀ c t, BlocksTableName c = .ok t → t = c ++ "_blocks") ∧
    (∀ c₁ c₂ t, BlocksTableName c₁ = .ok t → BlocksTableName c₂ = .ok t → c₁ = c₂) ∧
    (∀ c ∈ knownChains, BlocksTableName c = .ok (c ++ "_blocks")) ∧
    (∀ c, c ∉ knownChains → BlocksTableName c = .error "Unsupported blockchain") ∧
    (∀ c t, TransactionsTableName c = .ok t → t = c ++ "_transactions") ∧
    (∀ c₁ c₂ t, TransactionsTableName c₁ = .ok t → TransactionsTableName c₂ = .ok t → c₁ = c₂) ∧
    (∀ c ∈ knownChains, TransactionsTableName c = .ok (c ++ "_transactions")) ∧
    (∀ c, c ∉ knownChains → TransactionsTableName c = .error "Unsupported blockchain") ∧
    (∀ c ∈ knownChains, LabelsTableName c = c ++ "_labels") ∧
    (∀ c, (∀ ch ∈ c.data, ch ≠ '%') → LabelsTableName c = c ++ "_labels") ∧
    (∀ c₁ c₂, (∀ ch ∈ c₁.data, ch ≠ '%') → (∀ ch ∈ c₂.data, ch ≠ '%') →
      LabelsTableName c₁ = LabelsTableName c₂ → c₁ = c₂) := by
  refine ⟨fun c t h => blocksTableName_ok_shape h, ?_, blocksTableName_known,
    fun c h => blocksTableName_unknown h,
    fun c t h => transactionsTableName_ok_shape h, ?_, transactionsTableName_known,
    fun c h => transactionsTableName_unknown h, by decide,
    fun c hc => labelsTableName_no_percent hc, ?_⟩
  · intro c₁ c₂ t h1 h2
    have e1 := blocksTableName_ok_shape h1
    have e2 := blocksTableName_ok_shape h2
    exact string_append_right_cancel c₁ c₂ "_blocks" (by rw [← e1, ← e2])
  · intro c₁ c₂ t h1 h2
    have e1 := transactionsTableName_ok_shape h1
    have e2 := transactionsTableName_ok_shape h2
    exact string_append_right_cancel c₁ c₂ "_transactions" (by rw [← e1, ← e2])
  · intro c₁ c₂ h1 h2 h
    rw [labelsTableName_no_percent h1, labelsTableName_no_percent h2] at h
    exact string_append_right_cancel c₁ c₂ "_labels" h

/-- C3 witness: the amended theorem applied at concrete chains. -/
theorem claim_c3_amended_witness :
    ("ethereum_blocks" : String) = "ethereum" ++ "_blocks" ∧
    "mordor" ∉ knownChains ∧
    BlocksTableName "mordor" = .error "Unsupported blockchain" ∧
    TransactionsTableName "mordor" = .error "Unsupported blockchain" ∧
    LabelsTableName "mordor" = "mordor" ++ "_labels" :=
  ⟨claim_c3_amended.1 "ethereum" "ethereum_blocks" (by decide), by decide,
   claim_c3_amended.2.2.2.1 "mordor" (by decide),
   claim_c3_amended.2.2.2.2.2.2.2.1 "mordor" (by decide),
   claim_c3_amended.2.2.2.2.2.2.2.2.2.1 "mordor" (by decide)⟩

/-- C7: `IsBlockchainWithL1Chain` answers `true` exactly on the seven
L1-anchored chains — equivalently, on exactly the `arbitrum_*`, `game7*` and
`xai*` members of the whitelist — and the `l1_block_number` column is among
the inserted columns of the block-index write and of the raw-transaction
write if and only if the predicate holds for the chain. -/
theorem claim_c7 :
    (∀ c, IsBlockchainWithL1Chain c = true ↔ c ∈ l1AnchoredChains) ∧
    (∀ c ∈ knownChains,
        IsBlockchainWithL1Chain c =
          ("arbitrum_".data.isPrefixOf c.data || "game7".data.isPrefixOf c.data ||
            "xai".data.isPrefixOf c.data)) ∧
    (∀ c idxs stmt, writeBlockIndexToDB c idxs = .ok stmt →
        ("l1_block_number" ∈ stmt.columns ↔ IsBlockchainWithL1Chain c = true)) ∧
    (∀ c txs stmt, WriteRawTransactions c txs = .ok stmt →
        ("l1_block_number" ∈ stmt.columns ↔ IsBlockchainWithL1Chain c = true)) := by
  refine ⟨?_, by decide, ?_, ?_⟩
  · intro c
    unfold IsBlockchainWithL1Chain
    by_cases e1 : c = "ethereum"
    · subst e1; decide
    rw [if_neg e1]
    by_cases e2 : c = "polygon"
    · subst e2; decide
    rw [if_neg e2]
    by_cases e3 : c = "arbitrum_one"
    · subst e3; decide
    rw [if_neg e3]
    by_cases e4 : c = "arbitrum_sepolia"
    · subst e4; decide
    rw [if_neg e4]
    by_cases e5 : c = "game7_orbit_arbitrum_sepolia"
    · subst e5; decide
    rw [if_neg e5]
    by_cases e6 : c = "game7_testnet"
    · subst e6; decide
    rw [if_neg e6]
    by_cases e7 : c = "game7"
    · subst e7; decide
    rw [if_neg e7]
    by_cases e8 : c = "xai"
    · subst e8; decide
    rw [if_neg e8]
    by_cases e9 : c = "xai_sepolia"
    · subst e9; decide
    rw [if_neg e9]
    by_cases e10 : c = "mantle"
    · subst e10; decide
    rw [if_neg e10]
    by_cases e11 : c = "mantle_sepolia"
    · subst e11; decide
    rw [if_neg e11]
    by_cases e12 : c = "b3"
    · subst e12; decide
    rw [if_neg e12]
    by_cases e13 : c = "b3_sepolia"
    · subst e13; decide
    rw [if_neg e13]
    by_cases e14 : c = "ronin"
    · subst e14; decide
    rw [if_neg e14]
    by_cases e15 : c = "ronin_saigon"
    · subst e15; decide
    rw [if_neg e15]
    constructor
    · intro hh
      exact absurd hh (by decide)
    · intro hm
      simp only [l1AnchoredChains, List.mem_cons, List.not_mem_nil, or_false] at hm
      rcases hm with h | h | h | h | h | h | h
      · exact absurd h e3
      · exact absurd h e4
      · exact absurd h e5
      · exact absurd h e6
      · exact absurd h e7
      · exact absurd h e8
      · exact absurd h e9
  · intro c idxs stmt h
    rw [writeBlockIndexToDB_ok_columns h]
    exact mem_blockIndexColumns_l1 _
  · intro c txs stmt h
    rw [writeRawTransactions_ok_columns h]
    exact mem_rawTransactionsColumns_l1 _

/-- C7 witness: the theorem applied at `arbitrum_one` (L1-anchored) and at
`ethereum` (not L1-anchored), with concrete write statements. -/
theorem claim_c7_witness :
    (IsBlockchainWithL1Chain "arbitrum_one" = true ↔ "arbitrum_one" ∈ l1AnchoredChains) ∧
    (∃ stmt, writeBlockIndexToDB "arbitrum_one" [] = .ok stmt ∧
      ("l1_block_number" ∈ stmt.columns ↔ IsBlockchainWithL1Chain "arbitrum_one" = true)) ∧
    (∃ stmt, WriteRawTransactions "ethereum" [] = .ok stmt ∧
      ("l1_block_number" ∈ stmt.columns ↔ IsBlockchainWithL1Chain "ethereum" = true)) :=
  ⟨claim_c7.1 "arbitrum_one",
   ⟨_, rfl, claim_c7.2.2.1 "arbitrum_one" [] _ rfl⟩,
   ⟨_, rfl, claim_c7.2.2.2 "ethereum" [] _ rfl⟩⟩

/-- C8: `determineValue` yields SQL NULL for the untyped nil interface and
for a typed nil pointer of any pointee type, and passes every other value
through unchanged. -/
theorem claim_c8 :
    determineValue .goNil = none ∧
    (∀ ty, determineValue (.goNilPtr ty) = none) ∧
    (∀ v, v ≠ GoVal.goNil → (∀ ty, v ≠ GoVal.goNilPtr ty) →
        determineValue v = some v) := by
  refine ⟨rfl, fun ty => rfl, ?_⟩
  intro v h1 h2
  cases v with
  | goNil => exact absurd rfl h1
  | goNilPtr ty => exact absurd rfl (h2 ty)
  | _ => rfl

/-- C8 witness: the pass-through case applied at a string and at a non-nil
pointer, plus the two NULL cases. -/
theorem claim_c8_witness :
    determineValue (.goStr "x") = some (.goStr "x") ∧
    determineValue (.goPtrBigInt 5) = some (.goPtrBigInt 5) ∧
    determineValue (.goNilPtr "big.Int") = none :=
  ⟨claim_c8.2.2 (.goStr "x") (fun h => by cases h) (fun ty h => by cases h),
   claim_c8.2.2 (.goPtrBigInt 5) (fun h => by cases h) (fun ty h => by cases h),
   claim_c8.2.1 "big.Int"⟩

/-- C9: `decodeAddress` returns the single byte `0x00` with no error for
every string shorter than two characters; for longer strings it drops the
first two characters without checking them against `"0x"` — the result only
depends on what follows the first two characters. -/
theorem claim_c9 :
    (∀ s : String, s.length < 2 → decodeAddress s = .ok [0x00]) ∧
    (∀ p₁ p₂ rest : String, p₁.length = 2 → p₂.length = 2 →
        decodeAddress (p₁ ++ rest) = decodeAddress (p₂ ++ rest)) ∧
    (∀ s : String, 2 ≤ s.length → decodeAddress s = hexDecodeList (s.data.drop 2)) := by
  have hlen : ∀ s : String, s.length = s.data.length := fun s => rfl
  have happ : ∀ a b : String, (a ++ b).data = a.data ++ b.data :=
    fun a b => String.data_append a b
  refine ⟨?_, ?_, ?_⟩
  · intro s h
    unfold decodeAddress
    rw [if_pos h]
  · intro p₁ p₂ rest h1 h2
    have d1 : (p₁ ++ rest).data.drop 2 = rest.data := by
      rw [happ, show (2 : Nat) = p₁.data.length by rw [← hlen p₁, h1]]
      exact List.drop_left _ _
    have d2 : (p₂ ++ rest).data.drop 2 = rest.data := by
      rw [happ, show (2 : Nat) = p₂.data.length by rw [← hlen p₂, h2]]
      exact List.drop_left _ _
    have l1 : ¬ (p₁ ++ rest).length < 2 := by
      rw [hlen, happ, List.length_append, ← hlen p₁, h1]
      omega
    have l2 : ¬ (p₂ ++ rest).length < 2 := by
      rw [hlen, happ, List.length_append, ← hlen p₂, h2]
      omega
    unfold decodeAddress
    rw [if_neg l1, if_neg l2, d1, d2]
  · intro s h
    unfold decodeAddress
    rw [if_neg (by omega)]

/-- C9 witness: the theorem applied at a one-character string and at two
strings differing only in their first two characters, plus concrete
evaluations showing a non-`0x` prefix is silently stripped. -/
theorem claim_c9_witness :
    decodeAddress "z" = .ok [0x00] ∧
    decodeAddress ("0x" ++ "ff") = decodeAddress ("zz" ++ "ff") ∧
    decodeAddress "zzff" = hexDecodeList ("zzff".data.drop 2) ∧
    decodeAddress "zzff" = .ok [255] :=
  ⟨claim_c9.1 "z" (by decide),
   claim_c9.2.1 "0x" "zz" "ff" (by decide) (by decide),
   claim_c9.2.2 "zzff" (by decide),
   by decide⟩

/-- A parse failure in a row makes the whole row fail with the same error. -/
theorem writeRawTransactionsRow_error {isL1 : Bool} {m : ValuesMap}
    {rt : RawTransaction} {e : String} (h : parseRawTransaction rt = .error e) :
    writeRawTransactionsRow isL1 m rt = .error e := by
  simp only [writeRawTransactionsRow, h, except_bind_error]

/-- If any raw transaction in the list fails to parse, the fold over the rows
fails. -/
theorem foldlM_writeRaw_error (isL1 : Bool) :
    ∀ (rts : List RawTransaction) (m : ValuesMap),
      (∃ rt ∈ rts, ∃ e, parseRawTransaction rt = .error e) →
      ∃ e, rts.foldlM (writeRawTransactionsRow isL1) m = .error e := by
  intro rts
  induction rts with
  | nil => intro m h; simp at h
  | cons hd tl ih =>
    intro m h
    rcases h with ⟨rt, hmem, e, he⟩
    rw [List.foldlM_cons]
    rcases List.mem_cons.mp hmem with heq | hmem2
    · subst heq
      rw [writeRawTransactionsRow_error he, except_bind_error]
      exact ⟨e, rfl⟩
    · cases hr : writeRawTransactionsRow isL1 m hd with
      | error e2 => exact ⟨e2, rfl⟩
      | ok m2 =>
        rcases ih m2 ⟨rt, hmem2, e, he⟩ with ⟨e3, he3⟩
        exact ⟨e3, by rw [except_bind_ok]; exact he3⟩

/-- C10: `hexStringToBigInt` maps the empty string to a nil big integer with
no error — which the raw-transaction bulk insert stores as SQL NULL — while
`"0x"` and any string that is not valid hex after stripping an optional `0x`
prefix yield an error, and any such error aborts the entire raw-transactions
write. -/
theorem claim_c10 :
    hexStringToBigInt "" = .ok none ∧
    hexStringToBigInt "0x" = .error "failed to parse hex string: " ∧
    (∀ s, s ≠ "" → setStringHex (trimPrefix0x s) = none →
        hexStringToBigInt s = .error ("failed to parse hex string: " ++ trimPrefix0x s)) ∧
    (∃ stmt, WriteRawTransactions "ethereum" [sampleRawTxNullValue] = .ok stmt ∧
        stmtColumn stmt "value" = [none]) ∧
    (∀ blockchain rts, (∃ rt ∈ rts, ∃ e, parseRawTransaction rt = .error e) →
        ∃ e, WriteRawTransactions blockchain rts = .error e) := by
  refine ⟨rfl, by decide, ?_, ⟨_, rfl, by decide⟩, ?_⟩
  · intro s hne hbad
    simp only [hexStringToBigInt, hbad]
    rw [if_neg hne]
  · intro blockchain rts hex
    rcases foldlM_writeRaw_error (IsBlockchainWithL1Chain blockchain) rts
      (rawTransactionsInitialMap (IsBlockchainWithL1Chain blockchain)) hex with ⟨e, he⟩
    exact ⟨e, by simp only [WriteRawTransactions, he, except_bind_error]⟩

/-- C10 witness: the error case applied at the non-hex string `"0xzz"` and at
a one-element raw-transaction list whose `value` field is `"0xzz"`. -/
theorem claim_c10_witness :
    hexStringToBigInt "0xzz" = .error ("failed to parse hex string: " ++ trimPrefix0x "0xzz") ∧
    (∃ e, WriteRawTransactions "ethereum" [sampleRawTxBadValue] = .error e) :=
  ⟨claim_c10.2.2.1 "0xzz" (by decide) (by decide),
   claim_c10.2.2.2.2 "ethereum" [sampleRawTxBadValue]
     ⟨sampleRawTxBadValue, by decide, "failed to parse hex string: zz", by decide⟩⟩

/-- C1, code bug: a deterministic failing input for `WriteDataToCustomerDB`.
The call writes one valid transaction label and one raw transaction whose
`value` field `"0xzz"` is not valid hex. The raw-transactions write fails and
the error is returned, but — because each write's error is assigned to a
freshly shadowed `err` while the deferred handler tests the outer `err`,
which is still nil from `conn.Begin` — the deferred handler COMMITS instead
of rolling back: the labels insert of the same call is visible afterwards,
contradicting the specified roll-back-on-any-failure behaviour. -/
theorem claim_c1_code_bug :
    (∃ e, (WriteDataToCustomerDB "ethereum" [sampleTxCallLabel] []
        [sampleRawTxBadValue] []).1 = .error e) ∧
    (WriteDataToCustomerDB "ethereum" [sampleTxCallLabel] []
        [sampleRawTxBadValue] []).2 ≠ [] ∧
    ((WriteDataToCustomerDB "ethereum" [sampleTxCallLabel] []
        [sampleRawTxBadValue] []).2.map InsertStmt.table) = ["ethereum_labels"] ∧
    ((WriteDataToCustomerDB "ethereum" [sampleTxCallLabel] []
        [sampleRawTxBadValue] []).2.map
          (fun s => stmtColumn s "transaction_hash")) = [[some (.goStr "0xth")]] :=
  ⟨⟨"failed to parse hex string: zz", by decide⟩, by decide, by decide, by decide⟩

/-- A transaction whose input is shorter than ten characters produces no
transaction label and no error: the decoder skips it. -/
theorem processTxLabel_short (O : DecodeOracles) (abiMap : AbiMap) (ts : Nat)
    (tx : TxJson) (h : tx.input.length < 10) :
    processTxLabel O abiMap ts tx = .skipped := by
  unfold processTxLabel
  rw [if_pos h]

/-- For inputs of at least ten characters the decoder reads the registry only
at `(toAddress, input[0:10])`: two registries agreeing there give the same
outcome. -/
theorem processTxLabel_selector (O : DecodeOracles) (abiMap₁ abiMap₂ : AbiMap)
    (ts : Nat) (tx : TxJson) (h : 10 ≤ tx.input.length)
    (hsel : abiMap₁ tx.toAddress (String.mk (tx.input.data.take 10)) =
      abiMap₂ tx.toAddress (String.mk (tx.input.data.take 10))) :
    processTxLabel O abiMap₁ ts tx = processTxLabel O abiMap₂ ts tx := by
  simp only [processTxLabel]
  rw [if_neg (by omega), if_neg (by omega), hsel]

/-- A registry miss at `(toAddress, input[0:10])` skips the transaction. -/
theorem processTxLabel_no_entry (O : DecodeOracles) (abiMap : AbiMap) (ts : Nat)
    (tx : TxJson) (h : 10 ≤ tx.input.length)
    (hnone : abiMap tx.toAddress (String.mk (tx.input.data.take 10)) = none) :
    processTxLabel O abiMap ts tx = .skipped := by
  simp only [processTxLabel]
  rw [if_neg (by omega), hnone]

/-- C4: a transaction whose hex input has fewer than ten characters is
treated as a plain value transfer — no transaction label is emitted — in
particular for input `"0x"`; for longer inputs the ABI lookup is driven
exactly by the first ten characters `input[0:10]` (the outcome depends on the
registry only through that selector, and a miss there skips the
transaction). -/
theorem claim_c4 :
    (∀ (O : DecodeOracles) (abiMap : AbiMap) (ts : Nat) (tx : TxJson),
        tx.input.length < 10 → processTxLabel O abiMap ts tx = .skipped) ∧
    (∀ (O : DecodeOracles) (abiMap : AbiMap) (ts : Nat) (tx : TxJson),
        tx.input = "0x" → processTxLabel O abiMap ts tx = .skipped) ∧
    (∀ (O : DecodeOracles) (abiMap₁ abiMap₂ : AbiMap) (ts : Nat) (tx : TxJson),
        10 ≤ tx.input.length →
        abiMap₁ tx.toAddress (String.mk (tx.input.data.take 10)) =
          abiMap₂ tx.toAddress (String.mk (tx.input.data.take 10)) →
        processTxLabel O abiMap₁ ts tx = processTxLabel O abiMap₂ ts tx) ∧
    (∀ (O : DecodeOracles) (abiMap : AbiMap) (ts : Nat) (tx : TxJson),
        10 ≤ tx.input.length →
        abiMap tx.toAddress (String.mk (tx.input.data.take 10)) = none →
        processTxLabel O abiMap ts tx = .skipped) :=
  ⟨processTxLabel_short,
   fun O abiMap ts tx h => processTxLabel_short O abiMap ts tx (by rw [h]; decide),
   processTxLabel_selector,
   processTxLabel_no_entry⟩

/-- C4 witness: the theorem applied at a two-character input, at the concrete
input `"0x"`, and at a ten-character input over the empty registry. -/
theorem claim_c4_witness :
    processTxLabel nullOracles emptyAbiMap 0 sampleShortTx = .skipped ∧
    processTxLabel nullOracles emptyAbiMap 0 sample0xTx = .skipped ∧
    processTxLabel nullOracles emptyAbiMap 5 cxTx = .skipped :=
  ⟨claim_c4.1 nullOracles emptyAbiMap 0 sampleShortTx (by decide),
   claim_c4.2.1 nullOracles emptyAbiMap 0 sample0xTx rfl,
   claim_c4.2.2.2 nullOracles emptyAbiMap 5 cxTx (by decide) rfl⟩

/-- Transaction path, argument decoding fails: the decoder still emits a
label, labelled `seer-raw`, whose argument map is the fallback map with the
receipt status added. -/
theorem processTxLabel_decode_fail (O : DecodeOracles) (abiMap : AbiMap)
    (ts : Nat) (tx : TxJson) (entry : AbiEntry) (abi : String)
    (inputData : List Nat) (decodeErr : String) (status : Nat) (dataStr : String)
    (hlen : 10 ≤ tx.input.length)
    (hsel : abiMap tx.toAddress (String.mk (tx.input.data.take 10)) = some entry)
    (habi : O.getAbi entry.abiJSON = some abi)
    (hhex : hexDecodeList (tx.input.data.drop 2) = .ok inputData)
    (hdec : O.decodeTxInput abi inputData = .error decodeErr)
    (hrec : O.receiptStatus tx.hash = .ok status)
    (hmar : O.marshal (txFailMap tx entry (String.mk (tx.input.data.take 10))
      decodeErr status) = .ok dataStr) :
    processTxLabel O abiMap ts tx =
      .labeled
        { address := tx.toAddress, blockNumber := tx.blockNumber,
          blockHash := tx.blockHash, callerAddress := tx.fromAddress,
          labelName := entry.abiName, labelType := "tx_call",
          originAddress := tx.fromAddress, label := SeerCrawlerRawLabel,
          transactionHash := tx.hash, labelData := dataStr, blockTimestamp := ts }
        (txFailMap tx entry (String.mk (tx.input.data.take 10)) decodeErr status) := by
  have hlen' : ¬ tx.input.length < 10 := by omega
  simp only [txFailMap] at hmar
  simp only [processTxLabel, txFailMap]
  rw [if_neg hlen']
  simp only [hsel, habi, hhex, hdec, hrec, hmar]

/-- Transaction path, argument decoding succeeds: the label is the ordinary
`seer` label and the argument map is the decoded map with the receipt status
added. -/
theorem processTxLabel_decode_ok (O : DecodeOracles) (abiMap : AbiMap)
    (ts : Nat) (tx : TxJson) (entry : AbiEntry) (abi : String)
    (inputData : List Nat) (m : JMap) (status : Nat) (dataStr : String)
    (hlen : 10 ≤ tx.input.length)
    (hsel : abiMap tx.toAddress (String.mk (tx.input.data.take 10)) = some entry)
    (habi : O.getAbi entry.abiJSON = some abi)
    (hhex : hexDecodeList (tx.input.data.drop 2) = .ok inputData)
    (hdec : O.decodeTxInput abi inputData = .ok m)
    (hrec : O.receiptStatus tx.hash = .ok status)
    (hmar : O.marshal (mapSet m "status" (.jNum (if status = 1 then 1 else 0))) = .ok dataStr) :
    processTxLabel O abiMap ts tx =
      .labeled
        { address := tx.toAddress, blockNumber := tx.blockNumber,
          blockHash := tx.blockHash, callerAddress := tx.fromAddress,
          labelName := entry.abiName, labelType := "tx_call",
          originAddress := tx.fromAddress, label := SeerCrawlerLabel,
          transactionHash := tx.hash, labelData := dataStr, blockTimestamp := ts }
        (mapSet m "status" (.jNum (if status = 1 then 1 else 0))) := by
  have hlen' : ¬ tx.input.length < 10 := by omega
  simp only [processTxLabel]
  rw [if_neg hlen']
  simp only [hsel, habi, hhex, hdec, hrec, hmar]

/-- Log path, argument decoding fails: the emitted label is `seer-raw` and
its argument map is exactly the four-key fallback map. -/
theorem processLogLabel_decode_fail (O : DecodeOracles) (abiMap : AbiMap)
    (ts : Nat) (fromAddr : String) (e : LogJson) (entry : AbiEntry)
    (abi : String) (decodeErr : String) (dataStr : String)
    (hsel : abiMap e.address (logTopicSelector e) = some entry)
    (habi : O.getAbi entry.abiJSON = some abi)
    (hdec : O.decodeLogArgs abi e.topics e.data = .error decodeErr)
    (hmar : O.marshal (logFailMap e entry decodeErr) = .ok dataStr) :
    processLogLabel O abiMap ts fromAddr e =
      .labeled
        { label := SeerCrawlerRawLabel, labelName := entry.abiName,
          labelType := "event", blockNumber := e.blockNumber,
          blockHash := e.blockHash, address := e.address, callerAddress := "",
          originAddress := fromAddr, transactionHash := e.transactionHash,
          labelData := dataStr, blockTimestamp := ts, logIndex := e.logIndex }
        (logFailMap e entry decodeErr) := by
  simp only [logFailMap] at hmar
  simp only [processLogLabel, logFailMap]
  simp only [hsel, habi, hdec, hmar]

/-- Log path, argument decoding succeeds: the emitted label is `seer` and its
`labelData` is the serialisation of exactly the decoded argument map. -/
theorem processLogLabel_decode_ok (O : DecodeOracles) (abiMap : AbiMap)
    (ts : Nat) (fromAddr : String) (e : LogJson) (entry : AbiEntry)
    (abi : String) (m : JMap) (dataStr : String)
    (hsel : abiMap e.address (logTopicSelector e) = some entry)
    (habi : O.getAbi entry.abiJSON = some abi)
    (hdec : O.decodeLogArgs abi e.topics e.data = .ok m)
    (hmar : O.marshal m = .ok dataStr) :
    processLogLabel O abiMap ts fromAddr e =
      .labeled
        { label := SeerCrawlerLabel, labelName := entry.abiName,
          labelType := "event", blockNumber := e.blockNumber,
          blockHash := e.blockHash, address := e.address, callerAddress := "",
          originAddress := fromAddr, transactionHash := e.transactionHash,
          labelData := dataStr, blockTimestamp := ts, logIndex := e.logIndex }
        m := by
  simp only [processLogLabel]
  simp only [hsel, habi, hdec, hmar]

/-- C5, corrected, counterexample: on a transaction whose decode fails, the
emitted `seer-raw` label's argument map does NOT contain exactly the keys
`input_raw, abi, selector, error` — a fifth key `status` is added from the
receipt before serialisation. -/
theorem claim_c5_counterexample :
    ∃ l m, processTxLabel cxOracles cxAbiMap 5 cxTx = .labeled l m ∧
      l.label = SeerCrawlerRawLabel ∧
      "status" ∈ mapKeys m ∧
      mapKeys m ≠ ["input_raw", "abi", "selector", "error"] := by
  refine ⟨_, _, rfl, rfl, ?_, ?_⟩ <;> decide

/-- C5 (amended): for a record whose ABI is found and parsed but whose
argument decoding fails, the decoder emits a `seer-raw` label (for
transactions: provided the receipt fetch succeeds); for events its
`labelData` is a JSON object with exactly the keys
`input_raw, abi, selector, error`, while for transactions the receipt status
is added, giving exactly `input_raw, abi, selector, error, status`; when
decoding succeeds, `labelData` is the serialised decoded argument map — as
is, for events, and with the `status` key added, for transactions. (JSON
serialisation is abstracted by the `marshal` oracle, which must succeed for a
label to be emitted.) -/
theorem claim_c5_amended :
    (∀ (O : DecodeOracles) (abiMap : AbiMap) (ts : Nat) (tx : TxJson)
        (entry : AbiEntry) (abi : String) (inputData : List Nat)
        (decodeErr : String) (status : Nat) (dataStr : String),
      10 ≤ tx.input.length →
      abiMap tx.toAddress (String.mk (tx.input.data.take 10)) = some entry →
      O.getAbi entry.abiJSON = some abi →
      hexDecodeList (tx.input.data.drop 2) = .ok inputData →
      O.decodeTxInput abi inputData = .error decodeErr →
      O.receiptStatus tx.hash = .ok status →
      O.marshal (txFailMap tx entry (String.mk (tx.input.data.take 10))
        decodeErr status) = .ok dataStr →
      ∃ l, processTxLabel O abiMap ts tx =
          .labeled l (txFailMap tx entry (String.mk (tx.input.data.take 10))
            decodeErr status) ∧
        l.label = SeerCrawlerRawLabel ∧ l.labelData = dataStr ∧
        mapKeys (txFailMap tx entry (String.mk (tx.input.data.take 10))
          decodeErr status) = ["input_raw", "abi", "selector", "error", "status"]) ∧
    (∀ (O : DecodeOracles) (abiMap : AbiMap) (ts : Nat) (tx : TxJson)
        (entry : AbiEntry) (abi : String) (inputData : List Nat) (m : JMap)
        (status : Nat) (dataStr : String),
      10 ≤ tx.input.length →
      abiMap tx.toAddress (String.mk (tx.input.data.take 10)) = some entry →
      O.getAbi entry.abiJSON = some abi →
      hexDecodeList (tx.input.data.drop 2) = .ok inputData →
      O.decodeTxInput abi inputData = .ok m →
      O.receiptStatus tx.hash = .ok status →
      O.marshal (mapSet m "status" (.jNum (if status = 1 then 1 else 0))) = .ok dataStr →
      ∃ l, processTxLabel O abiMap ts tx =
          .labeled l (mapSet m "status" (.jNum (if status = 1 then 1 else 0))) ∧
        l.label = SeerCrawlerLabel ∧ l.labelData = dataStr) ∧
    (∀ (O : DecodeOracles) (abiMap : AbiMap) (ts : Nat) (fromAddr : String)
        (e : LogJson) (entry : AbiEntry) (abi : String) (decodeErr : String)
        (dataStr : String),
      abiMap e.address (logTopicSelector e) = some entry →
      O.getAbi entry.abiJSON = some abi →
      O.decodeLogArgs abi e.topics e.data = .error decodeErr →
      O.marshal (logFailMap e entry decodeErr) = .ok dataStr →
      ∃ l, processLogLabel O abiMap ts fromAddr e =
          .labeled l (logFailMap e entry decodeErr) ∧
        l.label = SeerCrawlerRawLabel ∧ l.labelData = dataStr ∧
        mapKeys (logFailMap e entry decodeErr) =
          ["input_raw", "abi", "selector", "error"]) ∧
    (∀ (O : DecodeOracles) (abiMap : AbiMap) (ts : Nat) (fromAddr : String)
        (e : LogJson) (entry : AbiEntry) (abi : String) (m : JMap)
        (dataStr : String),
      abiMap e.address (logTopicSelector e) = some entry →
      O.getAbi entry.abiJSON = some abi →
      O.decodeLogArgs abi e.topics e.data = .ok m →
      O.marshal m = .ok dataStr →
      ∃ l, processLogLabel O abiMap ts fromAddr e = .labeled l m ∧
        l.label = SeerCrawlerLabel ∧ l.labelData = dataStr) := by
  refine ⟨?_, ?_, ?_, ?_⟩
  · intro O abiMap ts tx entry abi inputData decodeErr status dataStr
      h1 h2 h3 h4 h5 h6 h7
    exact ⟨_, processTxLabel_decode_fail O abiMap ts tx entry abi inputData
      decodeErr status dataStr h1 h2 h3 h4 h5 h6 h7, rfl, rfl, rfl⟩
  · intro O abiMap ts tx entry abi inputData m status dataStr
      h1 h2 h3 h4 h5 h6 h7
    exact ⟨_, processTxLabel_decode_ok O abiMap ts tx entry abi inputData
      m status dataStr h1 h2 h3 h4 h5 h6 h7, rfl, rfl⟩
  · intro O abiMap ts fromAddr e entry abi decodeErr dataStr h1 h2 h3 h4
    exact ⟨_, processLogLabel_decode_fail O abiMap ts fromAddr e entry abi
      decodeErr dataStr h1 h2 h3 h4, rfl, rfl, rfl⟩
  · intro O abiMap ts fromAddr e entry abi m dataStr h1 h2 h3 h4
    exact ⟨_, processLogLabel_decode_ok O abiMap ts fromAddr e entry abi
      m dataStr h1 h2 h3 h4, rfl, rfl⟩

/-- C5 witness: the amended theorem applied to a concrete failing transaction
decode and a concrete failing log decode. -/
theorem claim_c5_amended_witness :
    (∃ l, processTxLabel cxOracles cxAbiMap 5 cxTx =
        .labeled l (txFailMap cxTx cxEntry (String.mk (cxTx.input.data.take 10))
          "cannot decode" 1) ∧
      l.label = SeerCrawlerRawLabel ∧ l.labelData = "serialized" ∧
      mapKeys (txFailMap cxTx cxEntry (String.mk (cxTx.input.data.take 10))
        "cannot decode" 1) = ["input_raw", "abi", "selector", "error", "status"]) ∧
    (∃ l, processLogLabel cxOracles cxAbiMap 5 "0xfrom" cxLog =
        .labeled l (logFailMap cxLog cxEntry "cannot decode") ∧
      l.label = SeerCrawlerRawLabel ∧ l.labelData = "serialized" ∧
      mapKeys (logFailMap cxLog cxEntry "cannot decode") =
        ["input_raw", "abi", "selector", "error"]) :=
  ⟨claim_c5_amended.1 cxOracles cxAbiMap 5 cxTx cxEntry "parsedAbi"
      [169, 5, 156, 187] "cannot decode" 1 "serialized"
      (by decide) (by decide) rfl (by decide) rfl rfl rfl,
   claim_c5_amended.2.2.1 cxOracles cxAbiMap 5 "0xfrom" cxLog cxEntry
      "parsedAbi" "cannot decode" "serialized" (by decide) rfl rfl rfl⟩

/-- A `filterMap` whose function answers `some` on every element preserves
the length. -/
theorem filterMap_length_of_all_some {α β : Type} (f : α → Option β) :
    ∀ (l : List α), (∀ a ∈ l, ∃ b, f a = some b) →
      (l.filterMap f).length = l.length := by
  intro l
  induction l with
  | nil => intro _; rfl
  | cons hd tl ih =>
    intro h
    rcases h hd (List.mem_cons_self hd tl) with ⟨b, hb⟩
    rw [List.filterMap_cons, hb, List.length_cons,
      ih (fun a ha => h a (List.mem_cons_of_mem hd ha)), List.length_cons]

/-- When some task of the range fails, the fetcher returns the empty block
slice and the collected error list. -/
theorem fetchBlocks_error_case {Block : Type} (fetch : Int → FetchOutcome Block)
    (fromBlock toBlock : Int)
    (h : ∃ b ∈ blockNumbersRange fromBlock toBlock, ∃ e, taskResult fetch b = .error e) :
    FetchBlocksInRangeAsync fetch fromBlock toBlock =
      ([], (blockNumbersRange fromBlock toBlock).filterMap (fun b =>
        match taskResult fetch b with
        | .error e => some e
        | .ok _ => none)) := by
  rcases h with ⟨b, hb, e, he⟩
  have hmem : e ∈ (blockNumbersRange fromBlock toBlock).filterMap (fun b =>
      match taskResult fetch b with
      | .error e => some e
      | .ok _ => none) :=
    List.mem_filterMap.mpr ⟨b, hb, by rw [he]⟩
  have hpos : 0 < ((blockNumbersRange fromBlock toBlock).filterMap (fun b =>
      match taskResult fetch b with
      | .error e => some e
      | .ok _ => none)).length :=
    List.length_pos.mpr (List.ne_nil_of_mem hmem)
  simp only [FetchBlocksInRangeAsync]
  rw [if_pos hpos]

/-- When every task of the range succeeds, the fetcher returns all blocks and
no error. -/
theorem fetchBlocks_ok_case {Block : Type} (fetch : Int → FetchOutcome Block)
    (fromBlock toBlock : Int)
    (h : ∀ b ∈ blockNumbersRange fromBlock toBlock, ∃ blk, taskResult fetch b = .ok blk) :
    FetchBlocksInRangeAsync fetch fromBlock toBlock =
      ((blockNumbersRange fromBlock toBlock).filterMap (fun b =>
        match taskResult fetch b with
        | .ok blk => some blk
        | .error _ => none), []) := by
  have hnil : (blockNumbersRange fromBlock toBlock).filterMap (fun b =>
      match taskResult fetch b with
      | .error e => some e
      | .ok _ => none) = [] := by
    rw [List.filterMap_eq_nil_iff]
    intro b hb
    rcases h b hb with ⟨blk, hblk⟩
    rw [hblk]
  simp only [FetchBlocksInRangeAsync]
  rw [hnil]
  simp

/-- C6: if any per-block task of the bounded-parallel fetcher fails (by error
or by panic, both reaching the error channel through `taskResult`), the call
returns the empty block slice together with a non-empty aggregate error list
containing every collected failure; if no task fails, it returns no error and
one block per range element, containing every fetched block. -/
theorem claim_c6 {Block : Type} (fetch : Int → FetchOutcome Block)
    (fromBlock toBlock : Int) :
    ((∃ b ∈ blockNumbersRange fromBlock toBlock, ∃ e, taskResult fetch b = .error e) →
      (FetchBlocksInRangeAsync fetch fromBlock toBlock).1 = [] ∧
      (FetchBlocksInRangeAsync fetch fromBlock toBlock).2 ≠ [] ∧
      (∀ b ∈ blockNumbersRange fromBlock toBlock, ∀ e, taskResult fetch b = .error e →
        e ∈ (FetchBlocksInRangeAsync fetch fromBlock toBlock).2)) ∧
    ((∀ b ∈ blockNumbersRange fromBlock toBlock, ∃ blk, taskResult fetch b = .ok blk) →
      (FetchBlocksInRangeAsync fetch fromBlock toBlock).2 = [] ∧
      (FetchBlocksInRangeAsync fetch fromBlock toBlock).1.length =
        (blockNumbersRange fromBlock toBlock).length ∧
      (∀ b ∈ blockNumbersRange fromBlock toBlock, ∀ blk, taskResult fetch b = .ok blk →
        blk ∈ (FetchBlocksInRangeAsync fetch fromBlock toBlock).1)) := by
  constructor
  · intro h
    rw [fetchBlocks_error_case fetch fromBlock toBlock h]
    refine ⟨rfl, ?_, ?_⟩
    · rcases h with ⟨b, hb, e, he⟩
      exact List.ne_nil_of_mem (List.mem_filterMap.mpr ⟨b, hb, by rw [he]⟩)
    · intro b hb e he
      exact List.mem_filterMap.mpr ⟨b, hb, by rw [he]⟩
  · intro h
    rw [fetchBlocks_ok_case fetch fromBlock toBlock h]
    refine ⟨rfl, ?_, ?_⟩
    · exact filterMap_length_of_all_some _ _ (fun b hb => by
        rcases h b hb with ⟨blk, hblk⟩
        exact ⟨blk, by rw [hblk]⟩)
    · intro b hb blk hblk
      exact List.mem_filterMap.mpr ⟨b, hb, by rw [hblk]⟩

/-- C6 witness: the failure case applied at the range `[0, 3]` with a task
failing at block 2, and the success case applied at the same range with no
failure. -/
theorem claim_c6_witness :
    ((FetchBlocksInRangeAsync fetchWitness 0 3).1 = [] ∧
      (FetchBlocksInRangeAsync fetchWitness 0 3).2 ≠ [] ∧
      (∀ b ∈ blockNumbersRange 0 3, ∀ e, taskResult fetchWitness b = .error e →
        e ∈ (FetchBlocksInRangeAsync fetchWitness 0 3).2)) ∧
    ((FetchBlocksInRangeAsync fetchWitnessOk 0 3).2 = [] ∧
      (FetchBlocksInRangeAsync fetchWitnessOk 0 3).1.length =
        (blockNumbersRange 0 3).length ∧
      (∀ b ∈ blockNumbersRange 0 3, ∀ blk, taskResult fetchWitnessOk b = .ok blk →
        blk ∈ (FetchBlocksInRangeAsync fetchWitnessOk 0 3).1)) :=
  ⟨(claim_c6 fetchWitness 0 3).1 ⟨2, by decide, "boom", rfl⟩,
   (claim_c6 fetchWitnessOk 0 3).2 (fun b hb => ⟨b, rfl⟩)⟩

/-! ## The scanner termination and correctness development (C2) -/

theorem measure_decreases_step (A Ap s sp : Nat) (hA : Ap < A) (hs : sp ≤ s) :
    Ap * (sp + 2) + sp < A * (s + 2) + s := by
  have hm1 : Ap * (sp + 2) ≤ Ap * (s + 2) := Nat.mul_le_mul (le_refl Ap) (by omega)
  have hm2 : (Ap + 1) * (s + 2) ≤ A * (s + 2) := Nat.mul_le_mul (by omega) (le_refl (s + 2))
  have hm3 : (Ap + 1) * (s + 2) = Ap * (s + 2) + (s + 2) := by ring
  linarith

theorem measure_decreases_halve (A s sp : Nat) (hs : sp < s) :
    A * (sp + 2) + sp < A * (s + 2) + s := by
  have hm1 : A * (sp + 2) ≤ A * (s + 2) := Nat.mul_le_mul (le_refl A) (by omega)
  linarith

/-- A `.next` step preserves the loop invariants, strictly decreases the
measure, and either leaves the accumulators unchanged (marker-error paths) or
extends them by exactly the successfully queried window. -/
theorem filterLogsStep_next_inv {Log : Type} (provider : Int → Int → RpcResult Log)
    {toBlock fromBlock batchStep fp sp : Int} {ws wsp : List (Int × Int)}
    {logs logsp : List Log}
    (h0 : 0 ≤ batchStep) (hle : fromBlock ≤ toBlock)
    (h : filterLogsStep provider toBlock fromBlock batchStep ws logs = .next fp sp wsp logsp) :
    0 ≤ sp ∧ fp ≤ toBlock ∧ fromBlock ≤ fp ∧
      filterLogsMeasure toBlock fp sp < filterLogsMeasure toBlock fromBlock batchStep ∧
      ((wsp = ws ∧ logsp = logs) ∨
        (∃ nb, fromBlock ≤ nb ∧ nb ≤ toBlock ∧ fp = nb + 1 ∧
          provider fromBlock nb = .ok (windowLogs provider (fromBlock, nb)) ∧
          wsp = ws ++ [(fromBlock, nb)] ∧
          logsp = logs ++ windowLogs provider (fromBlock, nb))) := by
  simp only [filterLogsStep] at h
  set nb := (if toBlock < fromBlock + batchStep then toBlock else fromBlock + batchStep)
    with hnbdef
  have hnb1 : fromBlock ≤ nb := by rw [hnbdef]; split <;> omega
  have hnb2 : nb ≤ toBlock := by rw [hnbdef]; split <;> omega
  split at h
  next msg hp =>
    by_cases hm : containsMarker msg = true
    · rw [if_pos hm] at h
      by_cases hs1 : batchStep / 2 < 1
      · rw [if_pos hs1] at h
        by_cases hpast : toBlock < nb + 1
        · rw [if_pos hpast] at h
          cases h
        · rw [if_neg hpast] at h
          injection h with h1 h2 h3 h4
          subst h1; subst h2; subst h3; subst h4
          refine ⟨by omega, by omega, by omega, ?_, Or.inl ⟨rfl, rfl⟩⟩
          simp only [filterLogsMeasure]
          exact measure_decreases_step _ _ _ _ (by omega) (by omega)
      · rw [if_neg hs1] at h
        injection h with h1 h2 h3 h4
        subst h1; subst h2; subst h3; subst h4
        refine ⟨by omega, hle, le_refl _, ?_, Or.inl ⟨rfl, rfl⟩⟩
        simp only [filterLogsMeasure]
        exact measure_decreases_halve _ _ _ (by omega)
    · rw [if_neg hm] at h
      cases h
  next result hp =>
    by_cases hpast : toBlock < nb + 1
    · rw [if_pos hpast] at h
      cases h
    · rw [if_neg hpast] at h
      injection h with h1 h2 h3 h4
      subst h1; subst h2; subst h3; subst h4
      refine ⟨h0, by omega, by omega, ?_, Or.inr ⟨nb, hnb1, hnb2, rfl, ?_, rfl, ?_⟩⟩
      · simp only [filterLogsMeasure]
        exact measure_decreases_step _ _ _ _ (by omega) (le_refl _)
      · simp [windowLogs, hp]
      · simp [windowLogs, hp]

/-- A `.done` step never reports fuel exhaustion. -/
theorem filterLogsStep_done_not_fuel {Log : Type}
    (provider : Int → Int → RpcResult Log)
    {toBlock fromBlock batchStep : Int} {ws : List (Int × Int)} {logs : List Log}
    {r : FilterResult Log}
    (h : filterLogsStep provider toBlock fromBlock batchStep ws logs = .done r) :
    r ≠ FilterResult.outOfFuel := by
  simp only [filterLogsStep] at h
  set nb := (if toBlock < fromBlock + batchStep then toBlock else fromBlock + batchStep)
    with hnbdef
  split at h
  next msg hp =>
    by_cases hm : containsMarker msg = true
    · rw [if_pos hm] at h
      by_cases hs1 : batchStep / 2 < 1
      · rw [if_pos hs1] at h
        by_cases hpast : toBlock < nb + 1
        · rw [if_pos hpast] at h
          injection h with h1
          subst h1
          exact fun hc => FilterResult.noConfusion hc
        · rw [if_neg hpast] at h
          cases h
      · rw [if_neg hs1] at h
        cases h
    · rw [if_neg hm] at h
      injection h with h1
      subst h1
      exact fun hc => FilterResult.noConfusion hc
  next result hp =>
    by_cases hpast : toBlock < nb + 1
    · rw [if_pos hpast] at h
      injection h with h1
      subst h1
      exact fun hc => FilterResult.noConfusion hc
    · rw [if_neg hpast] at h
      cases h

/-- A `.done (.ok …)` step either returns the accumulators unchanged (the
skip-past-the-end path) or appends exactly the final successful window. -/
theorem filterLogsStep_done_ok {Log : Type} (provider : Int → Int → RpcResult Log)
    {toBlock fromBlock batchStep : Int} {ws wsp : List (Int × Int)}
    {logs logsp : List Log}
    (h0 : 0 ≤ batchStep) (hle : fromBlock ≤ toBlock)
    (h : filterLogsStep provider toBlock fromBlock batchStep ws logs = .done (.ok wsp logsp)) :
    (wsp = ws ∧ logsp = logs) ∨
      (∃ nb, fromBlock ≤ nb ∧ nb ≤ toBlock ∧
        provider fromBlock nb = .ok (windowLogs provider (fromBlock, nb)) ∧
        wsp = ws ++ [(fromBlock, nb)] ∧
        logsp = logs ++ windowLogs provider (fromBlock, nb)) := by
  simp only [filterLogsStep] at h
  set nb := (if toBlock < fromBlock + batchStep then toBlock else fromBlock + batchStep)
    with hnbdef
  have hnb1 : fromBlock ≤ nb := by rw [hnbdef]; split <;> omega
  have hnb2 : nb ≤ toBlock := by rw [hnbdef]; split <;> omega
  split at h
  next msg hp =>
    by_cases hm : containsMarker msg = true
    · rw [if_pos hm] at h
      by_cases hs1 : batchStep / 2 < 1
      · rw [if_pos hs1] at h
        by_cases hpast : toBlock < nb + 1
        · rw [if_pos hpast] at h
          injection h with h1
          injection h1 with h2 h3
          subst h2; subst h3
          exact Or.inl ⟨rfl, rfl⟩
        · rw [if_neg hpast] at h
          cases h
      · rw [if_neg hs1] at h
        cases h
    · rw [if_neg hm] at h
      injection h with h1
      cases h1
  next result hp =>
    by_cases hpast : toBlock < nb + 1
    · rw [if_pos hpast] at h
      injection h with h1
      injection h1 with h2 h3
      subst h2; subst h3
      refine Or.inr ⟨nb, hnb1, hnb2, ?_, ?_, ?_⟩
      · simp [windowLogs, hp]
      · simp [windowLogs, hp]
      · simp [windowLogs, hp]
    · rw [if_neg hpast] at h
      cases h

/-- A `.done (.err …)` step returns a provider error that does not contain
the too-many-results marker. -/
theorem filterLogsStep_done_err {Log : Type} (provider : Int → Int → RpcResult Log)
    {toBlock fromBlock batchStep : Int} {ws : List (Int × Int)} {logs : List Log}
    {msg : String}
    (h : filterLogsStep provider toBlock fromBlock batchStep ws logs = .done (.err msg)) :
    containsMarker msg = false ∧ ∃ a b, provider a b = .err msg := by
  simp only [filterLogsStep] at h
  set nb := (if toBlock < fromBlock + batchStep then toBlock else fromBlock + batchStep)
    with hnbdef
  split at h
  next msg2 hp =>
    by_cases hm : containsMarker msg2 = true
    · rw [if_pos hm] at h
      by_cases hs1 : batchStep / 2 < 1
      · rw [if_pos hs1] at h
        by_cases hpast : toBlock < nb + 1
        · rw [if_pos hpast] at h
          injection h with h1
          cases h1
        · rw [if_neg hpast] at h
          cases h
      · rw [if_neg hs1] at h
        cases h
    · rw [if_neg hm] at h
      injection h with h1
      injection h1 with h2
      subst h2
      exact ⟨Bool.eq_false_iff.mpr hm, fromBlock, nb, hp⟩
  next result hp =>
    by_cases hpast : toBlock < nb + 1
    · rw [if_pos hpast] at h
      injection h with h1
      cases h1
    · rw [if_neg hpast] at h
      cases h

/-- The loop never exhausts a fuel budget exceeding the measure. -/
theorem clientFilterLogsLoop_no_outOfFuel {Log : Type}
    (provider : Int → Int → RpcResult Log) (toBlock : Int) :
    ∀ (fuel : Nat) (fromBlock batchStep : Int) (ws : List (Int × Int)) (logs : List Log),
      0 ≤ batchStep → fromBlock ≤ toBlock →
      filterLogsMeasure toBlock fromBlock batchStep < fuel →
      clientFilterLogsLoop provider toBlock fuel fromBlock batchStep ws logs ≠
        FilterResult.outOfFuel := by
  intro fuel
  induction fuel with
  | zero =>
    intro fromBlock batchStep ws logs _ _ hmu
    exact absurd hmu (Nat.not_lt_zero _)
  | succ n ih =>
    intro fromBlock batchStep ws logs h0 hle hmu
    simp only [clientFilterLogsLoop]
    cases hstep : filterLogsStep provider toBlock fromBlock batchStep ws logs with
    | done r => exact filterLogsStep_done_not_fuel provider hstep
    | next fp sp wsp logsp =>
      obtain ⟨hs0, hfle, _, hmlt, _⟩ := filterLogsStep_next_inv provider h0 hle hstep
      exact ih fp sp wsp logsp hs0 hfle (lt_of_lt_of_le hmlt (Nat.lt_succ_iff.mp hmu))

theorem ascendingFrom_mono :
    ∀ (ws : List (Int × Int)) {lo lop : Int}, lop ≤ lo →
      AscendingFrom lo ws → AscendingFrom lop ws := by
  intro ws
  induction ws with
  | nil => intro lo lop _ _; trivial
  | cons hd tl _ =>
    intro lo lop hlo h
    obtain ⟨a, b⟩ := hd
    obtain ⟨h1, h2, h3⟩ := h
    exact ⟨le_trans hlo h1, h2, h3⟩

/-- Success of the loop: the returned logs are the concatenation, in
ascending block order, of the providers' answers over the successfully
queried windows appended to the accumulator. -/
theorem clientFilterLogsLoop_ok_spec {Log : Type}
    (provider : Int → Int → RpcResult Log) (toBlock : Int) :
    ∀ (fuel : Nat) (fromBlock batchStep : Int) (ws : List (Int × Int))
      (logs : List Log) (wsp : List (Int × Int)) (logsp : List Log),
      0 ≤ batchStep → fromBlock ≤ toBlock →
      clientFilterLogsLoop provider toBlock fuel fromBlock batchStep ws logs =
        .ok wsp logsp →
      ∃ tail, wsp = ws ++ tail ∧ logsp = logs ++ windowsConcat provider tail ∧
        AscendingFrom fromBlock tail ∧
        ∀ w ∈ tail, provider w.1 w.2 = .ok (windowLogs provider w) := by
  intro fuel
  induction fuel with
  | zero =>
    intro fromBlock batchStep ws logs wsp logsp _ _ h
    cases h
  | succ n ih =>
    intro fromBlock batchStep ws logs wsp logsp h0 hle h
    simp only [clientFilterLogsLoop] at h
    cases hstep : filterLogsStep provider toBlock fromBlock batchStep ws logs with
    | done r =>
      rw [hstep] at h
      simp only at h
      subst h
      rcases filterLogsStep_done_ok provider h0 hle hstep with
        ⟨rfl, rfl⟩ | ⟨nb, hnb1, hnb2, hpw, rfl, rfl⟩
      · refine ⟨[], by simp, by simp [windowsConcat], trivial, ?_⟩
        intro w hw
        cases hw
      · refine ⟨[(fromBlock, nb)], by simp, by simp [windowsConcat],
          ⟨le_refl _, hnb1, trivial⟩, ?_⟩
        intro w hw
        rcases List.mem_singleton.mp hw with rfl
        exact hpw
    | next fp sp wsp2 logsp2 =>
      rw [hstep] at h
      simp only at h
      obtain ⟨hs0, hfle, hffrom, _, htail⟩ := filterLogsStep_next_inv provider h0 hle hstep
      rcases ih fp sp wsp2 logsp2 wsp logsp hs0 hfle h with
        ⟨tail2, rfl, hlogs2, hasc2, hmem2⟩
      rcases htail with ⟨rfl, rfl⟩ | ⟨nb, hnb1, hnb2, rfl, hpw, rfl, rfl⟩
      · exact ⟨tail2, rfl, hlogs2, ascendingFrom_mono tail2 hffrom hasc2, hmem2⟩
      · refine ⟨(fromBlock, nb) :: tail2, by simp, ?_,
          ⟨le_refl _, hnb1, hasc2⟩, ?_⟩
        · rw [hlogs2]
          simp [windowsConcat]
        · intro w hw
          rcases List.mem_cons.mp hw with rfl | hw2
          · exact hpw
          · exact hmem2 w hw2

/-- Error of the loop: the returned error is a provider error without the
marker. -/
theorem clientFilterLogsLoop_err_spec {Log : Type}
    (provider : Int → Int → RpcResult Log) (toBlock : Int) :
    ∀ (fuel : Nat) (fromBlock batchStep : Int) (ws : List (Int × Int))
      (logs : List Log) (msg : String),
      clientFilterLogsLoop provider toBlock fuel fromBlock batchStep ws logs = .err msg →
      containsMarker msg = false ∧ ∃ a b, provider a b = .err msg := by
  intro fuel
  induction fuel with
  | zero =>
    intro fromBlock batchStep ws logs msg h
    cases h
  | succ n ih =>
    intro fromBlock batchStep ws logs msg h
    simp only [clientFilterLogsLoop] at h
    cases hstep : filterLogsStep provider toBlock fromBlock batchStep ws logs with
    | done r =>
      rw [hstep] at h
      simp only at h
      subst h
      exact filterLogsStep_done_err provider hstep
    | next fp sp wsp2 logsp2 =>
      rw [hstep] at h
      simp only at h
      exact ih fp sp wsp2 logsp2 msg h

/-- C2: for every range `[from, to]` with `from ≤ to` and every provider
behaviour, the adaptive scanner terminates — the computable fuel budget
`filterLogsFuel` is never exhausted (on the marker error the loop body halves
the step and retries, and when the halved step falls below one block it
advances past the offending window by one, which the measure argument shows
cannot recur forever) — and on success it returns the concatenation, in
ascending block order, of the provider's answers over the successfully
queried sub-ranges, while any error without the marker substring is returned
as-is from the provider. -/
theorem claim_c2 (Log : Type) (provider : Int → Int → RpcResult Log)
    (fromBlock toBlock : Int) (hle : fromBlock ≤ toBlock) :
    ClientFilterLogs provider fromBlock toBlock ≠ FilterResult.outOfFuel ∧
    (∀ ws logs, ClientFilterLogs provider fromBlock toBlock = .ok ws logs →
      AscendingFrom fromBlock ws ∧
      logs = windowsConcat provider ws ∧
      ∀ w ∈ ws, provider w.1 w.2 = .ok (windowLogs provider w)) ∧
    (∀ msg, ClientFilterLogs provider fromBlock toBlock = .err msg →
      containsMarker msg = false ∧ ∃ a b, provider a b = .err msg) := by
  have hfuel : filterLogsMeasure toBlock fromBlock (toBlock - fromBlock) <
      filterLogsFuel fromBlock toBlock := by
    simp only [filterLogsMeasure, filterLogsFuel]
    exact Nat.lt_succ_self _
  refine ⟨?_, ?_, ?_⟩
  · exact clientFilterLogsLoop_no_outOfFuel provider toBlock _ fromBlock
      (toBlock - fromBlock) [] [] (by omega) hle hfuel
  · intro ws logs h
    rcases clientFilterLogsLoop_ok_spec provider toBlock _ fromBlock
      (toBlock - fromBlock) [] [] ws logs (by omega) hle h with
      ⟨tail, htail, hlogs, hasc, hmem⟩
    rw [List.nil_append] at htail
    subst htail
    rw [List.nil_append] at hlogs
    exact ⟨hasc, hlogs, hmem⟩
  · intro msg h
    exact clientFilterLogsLoop_err_spec provider toBlock _ fromBlock
      (toBlock - fromBlock) [] [] msg h

/-- C2 witness: the theorem applied over `[0, 3]` to a provider that answers
the marker error on every window of three blocks or more. -/
theorem claim_c2_witness :
    ClientFilterLogs filterWitnessProvider 0 3 ≠ FilterResult.outOfFuel :=
  (claim_c2 Int filterWitnessProvider 0 3 (by norm_num)).1

end Seer
